import Mathlib

/-
  bq-pipeline: package `handle` (pkg/handle/handler.go: the response builders, the
  payload-extraction helpers, `EOA` and `withoutProtocol`) and the two entry points
  (cmd/mediaaccount/main.go, cmd/putbq/main.go), embedded as Lean functions.

  Go values held in an `interface{}` are the trees of `json.Value`.  The two calls into
  encoding/json that the helpers make (`json.Marshal`, `json.Unmarshal`) are embedded as an
  executable encoder and decoder over JSON text; that the decoder reads back what the encoder
  wrote is proved below (`json.Unmarshal_Marshal`) and is what every statement about
  `Authorization` and `Argument` rests on.  The payload of `NormalResponse` is any Go value, not
  only a JSON tree, so there `json.Marshal` is a parameter.  A Go run-time panic is the `error`
  side of `Except`.

  The packages the handlers call and this repository part does not define (parameter store,
  verifier, notification sender, repository, business service, data warehouse) are parameters:
  a record of functions giving the pair each call returns.  A handler returns the list of the
  calls it made, in order, next to its result, so that "never invoked" and "exactly once" are
  statements about that list.
-/

namespace json

/-- A Go value as an `interface{}` holds it.  The first six constructors are the shapes
encoding/json decodes into (`nil`, `bool`, `float64`, `string`, `[]interface{}`,
`map[string]interface{}`); a finite `float64` is carried as the decimal `mant * 10 ^ exp`, a map as
the list of its entries, a later entry overriding an earlier one with the same key.
`unsupported` stands for any value `json.Marshal` rejects: a channel, a function, a complex
number, a NaN or an infinite float. -/
inductive Value where
  | null
  | bool (b : Bool)
  | number (mant : Int) (exp : Int)
  | string (s : String)
  | array (xs : List Value)
  | object (kvs : List (String × Value))
  | unsupported

namespace Value

mutual
/-- Whether `json.Marshal` accepts the value: no unsupported value anywhere inside it. -/
def encodable : Value → Bool
  | .null => true
  | .bool _ => true
  | .number _ _ => true
  | .string _ => true
  | .array xs => encodableList xs
  | .object kvs => encodableMembers kvs
  | .unsupported => false
/-- All elements of a slice are encodable. -/
def encodableList : List Value → Bool
  | [] => true
  | x :: xs => encodable x && encodableList xs
/-- All values of a map are encodable. -/
def encodableMembers : List (String × Value) → Bool
  | [] => true
  | (_, x) :: xs => encodable x && encodableMembers xs
end

end Value

/-! ### Encoder -/

/-- One lower-case hexadecimal digit. -/
def hexDigit (d : Nat) : Char :=
  if d < 10 then Char.ofNat (48 + d) else Char.ofNat (87 + d)

/-- Four hexadecimal digits of a code point below 0x10000. -/
def hex4 (n : Nat) : List Char :=
  [hexDigit (n / 4096 % 16), hexDigit (n / 256 % 16), hexDigit (n / 16 % 16), hexDigit (n % 16)]

/-- Characters the encoder writes as a six-character unicode escape: control characters, the
HTML-sensitive characters and the two line separators. -/
def needsUnicodeEscape (c : Char) : Bool :=
  c.toNat < 32 || c = '<' || c = '>' || c = '&' || c.toNat = 0x2028 || c.toNat = 0x2029

/-- Encoding of one character inside a string literal. -/
def escapeChar (c : Char) : List Char :=
  if c = '"' then ['\\', '"']
  else if c = '\\' then ['\\', '\\']
  else if c = '\n' then ['\\', 'n']
  else if c = '\r' then ['\\', 'r']
  else if c = '\t' then ['\\', 't']
  else if needsUnicodeEscape c then '\\' :: 'u' :: hex4 c.toNat
  else [c]

/-- Encoding of the characters of a string literal, quotes excluded. -/
def escape : List Char → List Char
  | [] => []
  | c :: cs => escapeChar c ++ escape cs

/-- A string literal. -/
def renderString (s : String) : List Char :=
  '"' :: (escape s.data ++ ['"'])

/-- One decimal digit. -/
def digitChar (d : Nat) : Char := Char.ofNat (48 + d)

/-- Decimal digits of a natural number, most significant first. -/
def renderNat (n : Nat) : List Char :=
  if n = 0 then ['0'] else (Nat.digits 10 n).reverse.map digitChar

/-- Decimal digits of an integer, with a minus sign when negative. -/
def renderInt (i : Int) : List Char :=
  if i < 0 then '-' :: renderNat i.natAbs else renderNat i.natAbs

mutual
/-- Compact JSON text of a value: no white space, map entries in the order of the list, a number
as mantissa, the letter e, exponent.  It is JSON text that decodes to the value, not byte for
byte the text encoding/json writes (which sorts the keys of a map, writes a number in the format
of strconv and has short escapes for backspace and form feed): `Authorization` and `Argument`
use the encoder only through the round trip, and `NormalResponse` takes its encoder as a
parameter. -/
def render : Value → List Char
  | .null => ['n', 'u', 'l', 'l']
  | .bool true => ['t', 'r', 'u', 'e']
  | .bool false => ['f', 'a', 'l', 's', 'e']
  | .number m e => renderInt m ++ 'e' :: renderInt e
  | .string s => renderString s
  | .array [] => ['[', ']']
  | .array (x :: xs) => '[' :: (render x ++ renderRest xs ++ [']'])
  | .object [] => ['{', '}']
  | .object ((k, x) :: kvs) =>
    '{' :: (renderString k ++ ':' :: render x ++ renderMembers kvs ++ ['}'])
  | .unsupported => []
/-- The elements of an array after the first, each behind a comma. -/
def renderRest : List Value → List Char
  | [] => []
  | x :: xs => ',' :: (render x ++ renderRest xs)
/-- The members of an object after the first, each behind a comma. -/
def renderMembers : List (String × Value) → List Char
  | [] => []
  | (k, x) :: kvs => ',' :: (renderString k ++ ':' :: render x ++ renderMembers kvs)
end

/-! ### Decoder -/

/-- JSON white space. -/
def isSpace (c : Char) : Bool := c = ' ' || c = '\t' || c = '\n' || c = '\r'

/-- Drop leading white space. -/
def skipWs : List Char → List Char
  | [] => []
  | c :: cs => if isSpace c then skipWs cs else c :: cs

/-- Read a fixed word off the front of the text. -/
def expect : List Char → List Char → Option (List Char)
  | [], cs => some cs
  | _ :: _, [] => none
  | p :: ps, c :: cs => if p = c then expect ps cs else none

/-- Value of a hexadecimal digit. -/
def hexVal (c : Char) : Option Nat :=
  if 48 ≤ c.toNat ∧ c.toNat ≤ 57 then some (c.toNat - 48)
  else if 97 ≤ c.toNat ∧ c.toNat ≤ 102 then some (c.toNat - 87)
  else if 65 ≤ c.toNat ∧ c.toNat ≤ 70 then some (c.toNat - 55)
  else none

/-- Value of four hexadecimal digits. -/
def unhex4 (a b c d : Char) : Option Nat :=
  match hexVal a, hexVal b, hexVal c, hexVal d with
  | some x, some y, some z, some w => some (x * 4096 + y * 256 + z * 16 + w)
  | _, _, _, _ => none

/-- The character a one-letter escape stands for. -/
def unescape (e : Char) : Option Char :=
  if e = '"' then some '"'
  else if e = '\\' then some '\\'
  else if e = '/' then some '/'
  else if e = 'b' then some (Char.ofNat 8)
  else if e = 'f' then some (Char.ofNat 12)
  else if e = 'n' then some '\n'
  else if e = 'r' then some '\r'
  else if e = 't' then some '\t'
  else none

/-- The character of a code point; the replacement character when it is not a scalar value. -/
def decodeRune (n : Nat) : Char :=
  if n.isValidChar then Char.ofNat n else Char.ofNat 0xFFFD

/-- Put an element in front of the first component. -/
def consFst {α β : Type} (a : α) (p : List α × β) : List α × β := (a :: p.1, p.2)

/-- The four digits behind a unicode escape. -/
def unicodeStep : List Char → Option (Option Char × List Char)
  | a :: b :: c :: d :: rest => (unhex4 a b c d).map (fun n => (some (decodeRune n), rest))
  | _ => none

/-- What follows a backslash inside a string literal. -/
def escapeStep : List Char → Option (Option Char × List Char)
  | [] => none
  | e :: rest =>
    if e = 'u' then unicodeStep rest
    else (unescape e).map (fun x => (some x, rest))

/-- One step inside a string literal: the closing quote (no character), or one decoded
character; `none` on malformed text. -/
def stringStep : List Char → Option (Option Char × List Char)
  | [] => none
  | c :: rest =>
    if c = '"' then some (none, rest)
    else if c = '\\' then escapeStep rest
    else if c.toNat < 32 then none
    else some (some c, rest)

/-- Characters of a string literal up to its closing quote, by recursion on a step budget. -/
def parseCharsAux : Nat → List Char → Option (List Char × List Char)
  | 0, _ => none
  | n + 1, cs =>
    match stringStep cs with
    | none => none
    | some (none, rest) => some ([], rest)
    | some (some c, rest) => (parseCharsAux n rest).map (consFst c)

/-- Characters of a string literal whose opening quote has been read. -/
def parseChars (cs : List Char) : Option (List Char × List Char) :=
  parseCharsAux cs.length cs

/-- A decimal digit. -/
def isDigit (c : Char) : Bool := 48 ≤ c.toNat && c.toNat ≤ 57

/-- Read a run of digits: the number read so far, how many digits were read, the rest. -/
def parseDigits : Nat → Nat → List Char → Nat × Nat × List Char
  | acc, k, [] => (acc, k, [])
  | acc, k, c :: cs =>
    if isDigit c then parseDigits (acc * 10 + (c.toNat - 48)) (k + 1) cs else (acc, k, c :: cs)

/-- An optional minus sign. -/
def parseSign : List Char → Bool × List Char
  | [] => (false, [])
  | c :: cs => if c = '-' then (true, cs) else (false, c :: cs)

/-- An optional sign of an exponent. -/
def parseExpSign : List Char → Bool × List Char
  | [] => (false, [])
  | c :: cs => if c = '-' then (true, cs) else if c = '+' then (false, cs) else (false, c :: cs)

/-- The integer of a sign and a magnitude. -/
def applySign (neg : Bool) (n : Nat) : Int := if neg then - (n : Int) else (n : Int)

/-- An optional exponent part. -/
def parseExponent : List Char → Option (Int × List Char)
  | [] => some (0, [])
  | c :: cs =>
    if c = 'e' ∨ c = 'E' then
      let (neg, cs1) := parseExpSign cs
      let (n, k, rest) := parseDigits 0 0 cs1
      if k = 0 then none else some (applySign neg n, rest)
    else some (0, c :: cs)

/-- An optional fraction part, appended to the mantissa read so far: the new mantissa and the
number of fraction digits. -/
def parseFraction (m : Nat) : List Char → Option (Nat × Nat × List Char)
  | [] => some (m, 0, [])
  | c :: cs =>
    if c = '.' then
      let (n, k, rest) := parseDigits m 0 cs
      if k = 0 then none else some (n, k, rest)
    else some (m, 0, c :: cs)

/-- A number literal. -/
def parseNumber (cs : List Char) : Option (Value × List Char) :=
  let (neg, cs1) := parseSign cs
  let (m, k, cs2) := parseDigits 0 0 cs1
  if k = 0 then none
  else
    match parseFraction m cs2 with
    | none => none
    | some (m1, f, cs3) =>
      match parseExponent cs3 with
      | none => none
      | some (e, rest) => some (.number (applySign neg m1) (e - (f : Int)), rest)

/-- The elements of a non-empty array up to the closing bracket, `pv` reading one value. -/
def parseElems (pv : List Char → Option (Value × List Char)) :
    Nat → List Char → Option (List Value × List Char)
  | 0, _ => none
  | n + 1, cs =>
    match pv cs with
    | none => none
    | some (v, rest) =>
      match skipWs rest with
      | [] => none
      | c :: rest1 =>
        if c = ',' then (parseElems pv n rest1).map (consFst v)
        else if c = ']' then some ([v], rest1)
        else none

/-- One member of an object: a string literal, a colon, a value. -/
def parseMember (pv : List Char → Option (Value × List Char)) (cs : List Char) :
    Option ((String × Value) × List Char) :=
  match skipWs cs with
  | [] => none
  | q :: cs1 =>
    if q = '"' then
      match parseChars cs1 with
      | none => none
      | some (k, cs2) =>
        match skipWs cs2 with
        | [] => none
        | c :: cs3 =>
          if c = ':' then
            match pv cs3 with
            | none => none
            | some (v, rest) => some ((String.mk k, v), rest)
          else none
    else none

/-- The members of a non-empty object up to the closing brace. -/
def parseMembers (pv : List Char → Option (Value × List Char)) :
    Nat → List Char → Option (List (String × Value) × List Char)
  | 0, _ => none
  | n + 1, cs =>
    match parseMember pv cs with
    | none => none
    | some (kv, rest) =>
      match skipWs rest with
      | [] => none
      | c :: rest1 =>
        if c = ',' then (parseMembers pv n rest1).map (consFst kv)
        else if c = '}' then some ([kv], rest1)
        else none

/-- One JSON value off the front of the text, by recursion on a budget that bounds both the
nesting depth and the number of elements of an array or object. -/
def parseValue : Nat → List Char → Option (Value × List Char)
  | 0, _ => none
  | fuel + 1, cs =>
    match skipWs cs with
    | [] => none
    | c :: rest =>
      if c = 'n' then (expect ['u', 'l', 'l'] rest).map (fun r => (Value.null, r))
      else if c = 't' then (expect ['r', 'u', 'e'] rest).map (fun r => (Value.bool true, r))
      else if c = 'f' then (expect ['a', 'l', 's', 'e'] rest).map (fun r => (Value.bool false, r))
      else if c = '"' then (parseChars rest).map (fun p => (Value.string (String.mk p.1), p.2))
      else if c = '[' then
        match skipWs rest with
        | [] => none
        | d :: rest1 =>
          if d = ']' then some (Value.array [], rest1)
          else (parseElems (parseValue fuel) fuel (d :: rest1)).map
            (fun p => (Value.array p.1, p.2))
      else if c = '{' then
        match skipWs rest with
        | [] => none
        | d :: rest1 =>
          if d = '}' then some (Value.object [], rest1)
          else (parseMembers (parseValue fuel) fuel (d :: rest1)).map
            (fun p => (Value.object p.1, p.2))
      else if c = '-' ∨ isDigit c then parseNumber (c :: rest)
      else none

/-- The errors of encoding/json that can arise here: a value that cannot be encoded, text that
is not JSON, and a JSON value that does not fit the Go type it is decoded into. -/
inductive Error where
  | unsupportedValue
  | syntaxError
  | unmarshalType
  deriving DecidableEq, Repr

/-- Go's `json.Marshal`: the encoding of the value, or an error when the value holds something
that cannot be encoded. -/
def Marshal (v : Value) : Except Error String :=
  if v.encodable then .ok (String.mk (render v)) else .error .unsupportedValue

/-- Go's `json.Unmarshal` into an `interface{}`: the text must be exactly one JSON value,
white space around it allowed.  The program decodes only text that `Marshal` wrote; on other
text this decoder is more lenient than Go's in that it reads a number with leading zeros and
reads each unicode escape on its own, without joining surrogate pairs. -/
def Unmarshal (b : String) : Except Error Value :=
  match parseValue (b.length + 1) b.data with
  | some (v, rest) => if skipWs rest = [] then .ok v else .error .syntaxError
  | none => .error .syntaxError

/-- Go's `json.Unmarshal(b, &req)` for `req` of type `map[string]interface{}`: the map after the
call and the error returned.  An object adds its members to the map, `null` sets the map to nil
(no entries); on text that is not JSON or not an object the map is left as it was. -/
def UnmarshalMap (b : String) (req : List (String × Value)) :
    List (String × Value) × Option Error :=
  match Unmarshal b with
  | .error e => (req, some e)
  | .ok (.object kvs) => (req ++ kvs, none)
  | .ok .null => ([], none)
  | .ok _ => (req, some .unmarshalType)

/-- Lookup in a map: the value of the last entry with the key. -/
def lookup : List (String × Value) → String → Option Value
  | [], _ => none
  | (k1, v) :: rest, k =>
    match lookup rest k with
    | some w => some w
    | none => if k1 = k then some v else none

/-- Go's index expression `m[k]` on a `map[string]interface{}`: nil when the key is absent. -/
def index (m : List (String × Value)) (k : String) : Value :=
  (lookup m k).getD .null

/-- The entry of a document under a top-level key: `none` when the document is not a mapping
or the mapping has no such key. -/
def Value.entry (v : Value) (k : String) : Option Value :=
  match v with
  | .object kvs => lookup kvs k
  | _ => none

/-- The text behind a number may not begin with a digit. -/
def digitFree : List Char → Bool
  | [] => true
  | c :: _ => !isDigit c

/-- The characters an encoding can begin with. -/
def startsValue (c : Char) : Bool :=
  c = 'n' || c = 't' || c = 'f' || c = '"' || c = '[' || c = '{' || c = '-' || isDigit c

end json

namespace runtime

/-- Dynamic type of an interface value, as a failed type assertion names it. -/
inductive Kind where
  | nil
  | bool
  | float64
  | string
  | slice
  | map
  | other
  deriving DecidableEq, Repr

/-- A Go run-time panic: a failed type assertion `x.(T)` (interface conversion: interface is
`found`, not `wanted`), or a method call on a nil interface. -/
inductive Panic where
  | typeAssertion (found : Kind) (wanted : Kind)
  | nilDereference
  deriving DecidableEq, Repr

/-- Dynamic type of a value. -/
def kindOf : json.Value → Kind
  | .null => .nil
  | .bool _ => .bool
  | .number _ _ => .float64
  | .string _ => .string
  | .array _ => .slice
  | .object _ => .map
  | .unsupported => .other

/-- The type assertion `x.(map[string]interface{})`. -/
def assertMap : json.Value → Except Panic (List (String × json.Value))
  | .object kvs => .ok kvs
  | v => .error (.typeAssertion (kindOf v) .map)

/-- The type assertion `x.(string)`. -/
def assertString : json.Value → Except Panic String
  | .string s => .ok s
  | v => .error (.typeAssertion (kindOf v) .string)

/-- A non-nil Go `error`, known by the text its `Error` method returns. -/
structure GoError where
  text : String
  deriving DecidableEq, Repr

/-- The method `Error()`. -/
def GoError.Error (e : GoError) : String := e.text

end runtime

namespace events

/-- The request type of aws-lambda-go (the fields the API gateway fills in). -/
structure APIGatewayProxyRequest where
  Resource : String
  Path : String
  HTTPMethod : String
  Headers : List (String × String)
  QueryStringParameters : List (String × String)
  PathParameters : List (String × String)
  StageVariables : List (String × String)
  Body : String
  IsBase64Encoded : Bool
  deriving DecidableEq, Repr

/-- The response type of aws-lambda-go. -/
structure APIGatewayProxyResponse where
  StatusCode : Int
  Headers : List (String × String)
  MultiValueHeaders : List (String × List String)
  Body : String
  IsBase64Encoded : Bool
  deriving DecidableEq, Repr

end events

namespace handle

open runtime

/-- The function `Headers` of handler.go:16. -/
def Headers (_request : events.APIGatewayProxyRequest) : List (String × String) :=
  [("Access-Control-Allow-Headers", "*"),
   ("Access-Control-Allow-Methods", "GET,POST,PUT,DELETE"),
   ("Access-Control-Allow-Credentials", "true"),
   ("Access-Control-Allow-Origin", "*")]

/-- The function `ErrorResponse` of handler.go:54.  `err` is an interface value, `none` being
nil, on which the call `err.Error()` panics. -/
def ErrorResponse (request : events.APIGatewayProxyRequest) (code : Int)
    (err : Option GoError) : Except Panic events.APIGatewayProxyResponse :=
  match err with
  | none => .error .nilDereference
  | some e =>
    .ok { StatusCode := code
          Headers := Headers request
          MultiValueHeaders := []
          Body := e.Error
          IsBase64Encoded := false }

/-- The function `UnauthorizedResponse` of handler.go:49. -/
def UnauthorizedResponse (request : events.APIGatewayProxyRequest) (err : Option GoError) :
    Except Panic events.APIGatewayProxyResponse :=
  ErrorResponse request 401 err

/-- The function `ClientErrorResponse` of handler.go:63. -/
def ClientErrorResponse (request : events.APIGatewayProxyRequest) (err : Option GoError) :
    Except Panic events.APIGatewayProxyResponse :=
  ErrorResponse request 400 err

/-- The function `UnexpectedErrorResponse` of handler.go:68. -/
def UnexpectedErrorResponse (request : events.APIGatewayProxyRequest) :
    events.APIGatewayProxyResponse :=
  { StatusCode := 500
    Headers := Headers request
    MultiValueHeaders := []
    Body := "unknown error"
    IsBase64Encoded := false }

/-- The function `NotFoundErrorResponse` of handler.go:77. -/
def NotFoundErrorResponse (request : events.APIGatewayProxyRequest) (err : Option GoError) :
    Except Panic events.APIGatewayProxyResponse :=
  ErrorResponse request 404 err

/-- The function `NormalResponse` of handler.go:82.  The payload `res` is an `interface{}` and
may hold a Go value of any type `α`; `marshal` is `json.Marshal` on that type, of which the
encoder `json.Marshal` above is the instance for JSON trees.  The error of the call is discarded;
with it the byte slice is nil and the body the empty string. -/
def NormalResponse {α ε : Type} (marshal : α → Except ε String)
    (request : events.APIGatewayProxyRequest) (res : α) : events.APIGatewayProxyResponse :=
  let resJSON : String :=
    match marshal res with
    | .ok b => b
    | .error _ => ""
  { StatusCode := 200
    Headers := Headers request
    MultiValueHeaders := []
    Body := resJSON
    IsBase64Encoded := false }

/-- The function `Authorization` of handler.go:92.  The errors of `json.Marshal` and
`json.Unmarshal` are discarded; the two type assertions are the unchecked form, which panics. -/
def Authorization (event : json.Value) : Except Panic String :=
  let req : List (String × json.Value) := []
  let b : String :=
    match json.Marshal event with
    | .ok b => b
    | .error _ => ""
  let req := (json.UnmarshalMap b req).1
  let input := json.index req "request"
  match assertMap input with
  | .error p => .error p
  | .ok headers =>
    let auth := json.index headers "authorization"
    match auth with
    | .null => .ok ""
    | _ => assertString auth

/-- The function `Argument` of handler.go:106. -/
def Argument (event : json.Value) (key : String) : Except Panic String :=
  let req : List (String × json.Value) := []
  let b : String :=
    match json.Marshal event with
    | .ok b => b
    | .error _ => ""
  let req := (json.UnmarshalMap b req).1
  let input := json.index req "arguments"
  match assertMap input with
  | .error p => .error p
  | .ok args =>
    let k := json.index args key
    match k with
    | .null => .ok ""
    | _ => assertString k

end handle

namespace mediaaccount

/-- The input of the media-account application service, with the fields main.go fills in. -/
structure ApplyForMediaInput where
  Name : String
  MailAddress : String
  URL : String
  deriving DecidableEq, Repr

end mediaaccount

namespace cmd.mediaaccount

open runtime

/-- The function `toInput` of cmd/mediaaccount/main.go:29: three calls of `handle.Argument`
in sequence, the first panic ending the function. -/
def toInput (event : json.Value) : Except Panic mediaaccount.ApplyForMediaInput :=
  match handle.Argument event "name" with
  | .error p => .error p
  | .ok name =>
    match handle.Argument event "mailAddress" with
    | .error p => .error p
    | .ok mail =>
      match handle.Argument event "url" with
      | .error p => .error p
      | .ok url => .ok { Name := name, MailAddress := mail, URL := url }

end cmd.mediaaccount

/-! ### Concrete envelopes and requests -/

namespace scenario

open json

/-- Scenario A: a resolver-style envelope with a token and the three arguments. -/
def envelopeA : Value :=
  .object
    [("request", .object [("authorization", .string "tok1")]),
     ("arguments",
      .object [("name", .string "Acme"), ("mailAddress", .string "a@b.com"),
        ("url", .string "http://x")])]

/-- Scenario B: an envelope with no `request` key. -/
def envelopeB : Value :=
  .object [("arguments", .object [("name", .string "Acme")])]

/-- An envelope whose `request` is a mapping without `authorization`. -/
def envelopeNoToken : Value :=
  .object [("request", .object [("headers", .object [])]), ("arguments", .object [])]

/-- An envelope with no `arguments` key. -/
def envelopeNoArguments : Value :=
  .object [("request", .object [("authorization", .string "tok1")])]

/-- An envelope whose token and whose `name` argument are numbers. -/
def envelopeMistyped : Value :=
  .object
    [("request", .object [("authorization", .number 5 0)]),
     ("arguments", .object [("name", .number 7 0)])]

/-- A gateway request with every field at its zero value. -/
def emptyRequest : events.APIGatewayProxyRequest :=
  { Resource := "", Path := "", HTTPMethod := "", Headers := [], QueryStringParameters := [],
    PathParameters := [], StageVariables := [], Body := "", IsBase64Encoded := false }

/-- A gateway request of another caller. -/
def otherRequest : events.APIGatewayProxyRequest :=
  { Resource := "/media", Path := "/media", HTTPMethod := "POST",
    Headers := [("Origin", "https://example.org")], QueryStringParameters := [],
    PathParameters := [], StageVariables := [], Body := "x", IsBase64Encoded := false }

/-- Scenario C: the error of a business service that found nothing. -/
def accountNotFound : runtime.GoError := { text := "account not found" }

/-- A success payload that is a JSON document, its entries in key order. -/
def payload : Value :=
  .object [("approved", .bool false), ("id", .string "m-1"), ("tags", .array [.string "a"])]

/-- A payload that holds a float `json.Marshal` rejects (a NaN) under `score`. -/
def payloadNaN : Value :=
  .object [("id", .string "m-1"), ("score", .unsupported)]

/-- The error of a collaborator that could not be reached. -/
def upstreamFailure : runtime.GoError := { text := "dial tcp: connection refused" }

end scenario

/-- The five status codes of the specification's NormalizedResponse. -/
def statusCodes : List Int := [200, 400, 401, 404, 500]

/-! ### `strings.ReplaceAll` and `withoutProtocol` -/

namespace strings

/-- Go's `strings.HasPrefix` on the characters of the two strings. -/
def HasPrefix : List Char → List Char → Bool
  | _, [] => true
  | [], _ :: _ => false
  | c :: cs, p :: ps => c = p && HasPrefix cs ps

/-- The scan of `strings.ReplaceAll` for a non-empty `old`: at an occurrence of `old` write `new`
and go on behind the occurrence, else copy one character.  The budget is the number of steps; the
length of the text is enough. -/
def replaceAux (old new : List Char) : Nat → List Char → List Char
  | 0, s => s
  | fuel + 1, s =>
    if HasPrefix s old then new ++ replaceAux old new fuel (s.drop old.length)
    else
      match s with
      | [] => []
      | c :: cs => c :: replaceAux old new fuel cs

/-- The text with `new` behind each of its characters. -/
def interleave (new : List Char) : List Char → List Char
  | [] => []
  | c :: cs => c :: (new ++ interleave new cs)

/-- Go's `strings.ReplaceAll(s, old, new)`: every non-overlapping occurrence of `old`, from the
left, replaced by `new`; an empty `old` matches in front of the text and behind each character. -/
def ReplaceAll (s old new : String) : String :=
  if old.data = [] then String.mk (new.data ++ interleave new.data s.data)
  else String.mk (replaceAux old.data new.data s.data.length s.data)

end strings

namespace handle

/-- The function `withoutProtocol` of handler.go:34. -/
def withoutProtocol (origin : String) : String :=
  strings.ReplaceAll (strings.ReplaceAll origin "https://" "") "http://" ""

end handle

/-! ### Collaborators and the calls made to them -/

namespace common

/-- The account address of go-ethereum (`common.Address`, 20 bytes), as the number the bytes
spell; `common.Address{}` is zero. -/
structure Address where
  value : Nat
  deriving DecidableEq, Repr

/-- The zero value `common.Address{}`. -/
def Address.zero : Address := { value := 0 }

end common

namespace user

/-- The record of package user that the ingestion handler uploads. -/
structure User where
  ID : String
  Name : String
  deriving DecidableEq, Repr

end user

namespace effects

/-- A `context.Context`, known by an identifier. -/
structure Context where
  id : Nat
  deriving DecidableEq, Repr

/-- A handle on a managed service (parameter store, verifier, notification sender, database,
repository, data warehouse), known by an identifier; the zero value stands for nil. -/
structure Client where
  id : Nat
  deriving DecidableEq, Repr

/-- One call from the handlers into a collaborator package, in the order made. -/
inductive Call where
  | ssmNew
  | authNewVerifier
  | newVerifyService
  | verify (jwt : String)
  | slackNew
  | ddbNew
  | mediarepNew
  | newService
  | newApplication (ad : common.Address) (input : mediaaccount.ApplyForMediaInput)
  | bigqueryNew
  | logError (msg : String) (err : runtime.GoError)
  | osExit (code : Int)
  | upload (record : user.User)
  deriving DecidableEq, Repr

/-- The calls of the verifier's `Verify`. -/
def Call.isVerify : Call → Bool
  | .verify _ => true
  | _ => false

/-- The calls of the business service's `NewApplication`. -/
def Call.isNewApplication : Call → Bool
  | .newApplication _ _ => true
  | _ => false

/-- The calls of the data sink's `Upload`. -/
def Call.isUpload : Call → Bool
  | .upload _ => true
  | _ => false

end effects

namespace handle

open runtime effects

/-- What `EOA` calls and does not define: `ssm.New()`, `auth.NewVerifier(ctx, store)` and
`account.NewVerifyService(v).Verify(ctx, jwt)`, each with the pair it returns. -/
structure Collaborators where
  ssmNew : Client
  newVerifier : Context → Client → Client × Option GoError
  verify : Client → Context → String → common.Address × Option GoError

/-- The function `EOA` of handler.go:26: the calls made and the pair returned. -/
def EOA (w : Collaborators) (ctx : Context) (jwt : String) :
    List Call × (common.Address × Option GoError) :=
  match w.newVerifier ctx w.ssmNew with
  | (_, some err) => ([.ssmNew, .authNewVerifier], (common.Address.zero, some err))
  | (v, none) =>
    ([.ssmNew, .authNewVerifier, .newVerifyService, .verify jwt], w.verify v ctx jwt)

end handle

namespace cmd.mediaaccount

open runtime effects

/-- What the media-account handler calls and does not define: the collaborators of `EOA`,
`slack.New(ctx, store)`, `ddb.New()`, `mediarep.New(db)` and, for the service built by
`mediaaccount.NewService(repository, sender)`, its method `NewApplication(ctx, ad, input)`.
`Output` is the type `mediaaccount.ApplyForMediaOutput`. -/
structure Collaborators (Output : Type) where
  auth : handle.Collaborators
  slackNew : Context → Client → Client × Option GoError
  ddbNew : Client
  mediarepNew : Client → Client
  newApplication : Client → Client → Context → common.Address →
    mediaaccount.ApplyForMediaInput → Output × Option GoError

/-- The function `handler` of cmd/mediaaccount/main.go:15: the calls made, and either the panic
that ended the run or the pair returned (`none` for a nil pointer, `none` for a nil error).  The
error of `slack.New` is assigned and never read; the arguments of `NewApplication` are evaluated
after the service is built, left to right. -/
def handler {Output : Type} (w : Collaborators Output) (ctx : Context) (event : json.Value) :
    List Call × Except Panic (Option Output × Option GoError) :=
  match handle.Authorization event with
  | .error p => ([], .error p)
  | .ok auth =>
    match handle.EOA w.auth ctx auth with
    | (calls, (_, some err)) => (calls, .ok (none, some err))
    | (calls, (ad, none)) =>
      let slc := (w.slackNew ctx w.auth.ssmNew).1
      let repository := w.mediarepNew w.ddbNew
      let built := calls ++ [.ssmNew, .slackNew, .ddbNew, .mediarepNew, .newService]
      match toInput event with
      | .error p => (built, .error p)
      | .ok input =>
        match w.newApplication repository slc ctx ad input with
        | (_, some err) => (built ++ [.newApplication ad input], .ok (none, some err))
        | (res, none) => (built ++ [.newApplication ad input], .ok (some res, none))

/-- What the handler returns for the pair `NewApplication` returned: a pointer to the output
and a nil error, or a nil pointer and the error. -/
def outcome {Output : Type} : Output × Option GoError → Option Output × Option GoError
  | (_, some err) => (none, some err)
  | (res, none) => (some res, none)

/-- The collaborators with the error that `slack.New` returns replaced, the sender it returns
kept. -/
def withSlackError {Output : Type} (w : Collaborators Output) (e : Option GoError) :
    Collaborators Output :=
  { w with slackNew := fun ctx store => ((w.slackNew ctx store).1, e) }

end cmd.mediaaccount

namespace events

/-- One record of an SNS event of aws-lambda-go. -/
structure SNSEventRecord where
  EventVersion : String
  EventSubscriptionArn : String
  EventSource : String
  MessageID : String
  Message : String
  deriving DecidableEq, Repr

/-- The SNS event of aws-lambda-go. -/
structure SNSEvent where
  Records : List SNSEventRecord
  deriving DecidableEq, Repr

end events

namespace cmd.putbq

open runtime effects

/-- What the ingestion handler calls and does not define: `bigquery.New(ctx)` and
`bigquery.Service{}.Upload(ctx, client, record)`. -/
structure Collaborators where
  bigqueryNew : Context → Client × Option GoError
  upload : Context → Client → user.User → Option GoError

/-- How a run of the ingestion handler ends: it returns its error, or the process exits. -/
inductive Outcome where
  | returned (err : Option GoError)
  | exited (code : Int)
  deriving DecidableEq, Repr

/-- The function `handler` of cmd/putbq/main.go:15: the calls made and how the run ends. -/
def handler (w : Collaborators) (ctx : Context) (_request : events.SNSEvent) :
    List Call × Outcome :=
  let inputUserData : user.User := { ID := "1", Name := "hoge" }
  match w.bigqueryNew ctx with
  | (_, some err) =>
    ([.bigqueryNew, .logError "bigquery client create failed" err, .osExit 1], .exited 1)
  | (client, none) =>
    match w.upload ctx client inputUserData with
    | some err => ([.bigqueryNew, .upload inputUserData], .returned (some err))
    | none => ([.bigqueryNew, .upload inputUserData], .returned none)

end cmd.putbq

namespace scenario

open runtime effects

/-- The context of the invocation. -/
def ctx : Context := { id := 1 }

/-- Scenario A: the address the verifier recovers from `tok1`. -/
def addressABC : common.Address := { value := 0xABC }

/-- The error of a verifier that does not accept a token. -/
def unauthenticated : GoError := { text := "unauthenticated" }

/-- Scenario A: a verifier that accepts `tok1` and no other token. -/
def verifierA : handle.Collaborators :=
  { ssmNew := { id := 1 }
    newVerifier := fun _ _ => ({ id := 2 }, none)
    verify := fun _ _ jwt =>
      if jwt = "tok1" then (addressABC, none) else (common.Address.zero, some unauthenticated) }

/-- A verifier that accepts every token, the empty one too. -/
def verifierAny : handle.Collaborators :=
  { ssmNew := { id := 1 }
    newVerifier := fun _ _ => ({ id := 2 }, none)
    verify := fun _ _ _ => (addressABC, none) }

/-- Collaborators for which the construction of the verifier handle fails. -/
def verifierDown : handle.Collaborators :=
  { ssmNew := { id := 1 }
    newVerifier := fun _ _ => ({ id := 0 }, some upstreamFailure)
    verify := fun _ _ _ => (addressABC, none) }

/-- Scenario A: the business service echoes the name applied for; the sender is built. -/
def servicesA : cmd.mediaaccount.Collaborators String :=
  { auth := verifierA
    slackNew := fun _ _ => ({ id := 3 }, none)
    ddbNew := { id := 4 }
    mediarepNew := fun _ => { id := 5 }
    newApplication := fun _ _ _ _ input => (input.Name, none) }

/-- Scenario C: the business service finds no account. -/
def servicesC : cmd.mediaaccount.Collaborators String :=
  { servicesA with newApplication := fun _ _ _ _ _ => ("", some accountNotFound) }

/-- An envelope with a token and with a boolean under `arguments.name`. -/
def envelopeBadName : json.Value :=
  .object
    [("request", .object [("authorization", .string "tok1")]),
     ("arguments", .object [("name", .bool true)])]

/-- An envelope whose `authorization` and whose `url` argument are null. -/
def envelopeNullLeaves : json.Value :=
  .object
    [("request", .object [("authorization", .null)]),
     ("arguments", .object [("name", .string "Acme"), ("url", .null)])]

/-- A data warehouse that takes every record. -/
def warehouseUp : cmd.putbq.Collaborators :=
  { bigqueryNew := fun _ => ({ id := 6 }, none)
    upload := fun _ _ _ => none }

/-- A data warehouse whose upload fails. -/
def warehouseFull : cmd.putbq.Collaborators :=
  { bigqueryNew := fun _ => ({ id := 6 }, none)
    upload := fun _ _ _ => some upstreamFailure }

/-- An SNS event with no record. -/
def snsEmpty : events.SNSEvent := { Records := [] }

/-- An SNS event with one record. -/
def snsOne : events.SNSEvent :=
  { Records :=
      [{ EventVersion := "1.0", EventSubscriptionArn := "arn:aws:sns:x", EventSource := "aws:sns",
         MessageID := "m-1", Message := "hello" }] }

end scenario

/-! ## The decoder inverts the encoder -/

namespace json

theorem hexVal_hexDigit (d : Nat) (h : d < 16) : hexVal (hexDigit d) = some d := by
  interval_cases d <;> rfl

theorem unhex4_hex4 (n : Nat) (h : n < 65536) :
    unhex4 (hexDigit (n / 4096 % 16)) (hexDigit (n / 256 % 16)) (hexDigit (n / 16 % 16))
      (hexDigit (n % 16)) = some n := by
  unfold unhex4
  rw [hexVal_hexDigit _ (Nat.mod_lt _ (by decide)), hexVal_hexDigit _ (Nat.mod_lt _ (by decide)),
    hexVal_hexDigit _ (Nat.mod_lt _ (by decide)), hexVal_hexDigit _ (Nat.mod_lt _ (by decide))]
  simp only [Option.some.injEq]
  omega

theorem decodeRune_toNat (c : Char) : decodeRune c.toNat = c := by
  unfold decodeRune
  have hv : c.toNat.isValidChar := c.valid
  rw [if_pos hv]
  exact Char.ofNat_toNat c

theorem needsUnicodeEscape_lt (c : Char) (h : needsUnicodeEscape c = true) : c.toNat < 65536 := by
  unfold needsUnicodeEscape at h
  simp only [Bool.or_eq_true, decide_eq_true_eq] at h
  rcases h with ((((h | h) | h) | h) | h) | h
  · omega
  · subst h; decide
  · subst h; decide
  · subst h; decide
  · omega
  · omega

theorem stringStep_escapeChar (c : Char) (tail : List Char) :
    stringStep (escapeChar c ++ tail) = some (some c, tail) := by
  unfold escapeChar
  split_ifs with h1 h2 h3 h4 h5 h6
  · subst h1; rfl
  · subst h2; rfl
  · subst h3; rfl
  · subst h4; rfl
  · subst h5; rfl
  · have hn := unhex4_hex4 c.toNat (needsUnicodeEscape_lt c h6)
    simp only [hex4, List.cons_append, List.nil_append, stringStep, escapeStep, unicodeStep, hn,
      decodeRune_toNat, Option.map_some']
    rfl
  · have h7 : ¬ c.toNat < 32 := by
      intro hlt
      apply h6
      simp [needsUnicodeEscape, hlt]
    simp only [List.cons_append, List.nil_append, stringStep, h1, h2, h7, if_false]

theorem escapeChar_length_pos (c : Char) : 0 < (escapeChar c).length := by
  unfold escapeChar
  split_ifs <;> simp [hex4]

theorem parseCharsAux_escape (s rest : List Char) :
    ∀ n, (escape s).length < n → parseCharsAux n (escape s ++ '"' :: rest) = some (s, rest) := by
  induction s with
  | nil =>
    intro n hn
    cases n with
    | zero => omega
    | succ n => rfl
  | cons c cs ih =>
    intro n hn
    cases n with
    | zero => omega
    | succ n =>
      have hpos := escapeChar_length_pos c
      simp only [escape, List.length_append] at hn
      simp only [escape, List.append_assoc, parseCharsAux, stringStep_escapeChar]
      rw [ih n (by omega)]
      rfl

theorem parseChars_escape (s rest : List Char) :
    parseChars (escape s ++ '"' :: rest) = some (s, rest) := by
  unfold parseChars
  apply parseCharsAux_escape
  simp


theorem isDigit_digitChar (d : Nat) (h : d < 10) : isDigit (digitChar d) = true := by
  interval_cases d <;> rfl

theorem toNat_digitChar (d : Nat) (h : d < 10) : (digitChar d).toNat - 48 = d := by
  interval_cases d <;> rfl

theorem parseDigits_stop (acc k : Nat) (rest : List Char) (h : digitFree rest = true) :
    parseDigits acc k rest = (acc, k, rest) := by
  cases rest with
  | nil => rfl
  | cons c cs =>
    simp only [digitFree, Bool.not_eq_true'] at h
    simp [parseDigits, h]

theorem parseDigits_map (L : List Nat) (hL : ∀ d ∈ L, d < 10) (rest : List Char)
    (h : digitFree rest = true) :
    ∀ acc k, parseDigits acc k (L.map digitChar ++ rest)
      = (L.foldl (fun a d => a * 10 + d) acc, k + L.length, rest) := by
  induction L with
  | nil =>
    intro acc k
    simpa using parseDigits_stop acc k rest h
  | cons d ds ih =>
    intro acc k
    have hd : d < 10 := hL d (List.mem_cons_self _ _)
    have hds : ∀ x ∈ ds, x < 10 := fun x hx => hL x (List.mem_cons_of_mem _ hx)
    simp only [List.map_cons, List.cons_append, parseDigits, isDigit_digitChar d hd, if_true,
      toNat_digitChar d hd, List.foldl_cons, List.length_cons, List.append_eq]
    rw [ih hds]
    simp only [Prod.mk.injEq, true_and, and_true]
    omega

theorem foldr_digits (L : List Nat) :
    L.foldr (fun d a => a * 10 + d) 0 = Nat.ofDigits 10 L := by
  induction L with
  | nil => rfl
  | cons d ds ih =>
    simp only [List.foldr_cons, ih, Nat.ofDigits_cons]
    ring

theorem renderNat_length_pos (n : Nat) : 0 < (renderNat n).length := by
  unfold renderNat
  split_ifs with h
  · simp
  · have := (@Nat.digits_ne_nil_iff_ne_zero 10 n).mpr h
    simp only [List.length_map, List.length_reverse]
    exact List.length_pos.mpr this

theorem parseDigits_renderNat (n : Nat) (rest : List Char) (h : digitFree rest = true) :
    parseDigits 0 0 (renderNat n ++ rest) = (n, (renderNat n).length, rest) := by
  unfold renderNat
  split_ifs with h0
  · subst h0
    simp only [List.cons_append, List.nil_append, parseDigits, List.append_eq]
    rw [if_pos (by rfl), parseDigits_stop _ _ _ h]
    rfl
  · have hlt : ∀ d ∈ (Nat.digits 10 n).reverse, d < 10 := by
      intro d hd
      exact Nat.digits_lt_base (by decide) (List.mem_reverse.mp hd)
    rw [parseDigits_map _ hlt rest h, List.foldl_reverse]
    simp only [List.length_map, List.length_reverse, Nat.zero_add, Prod.mk.injEq, and_true]
    have := foldr_digits (Nat.digits 10 n)
    rw [Nat.ofDigits_digits] at this
    exact this

theorem renderNat_head (n : Nat) : ∃ c t, renderNat n = c :: t ∧ isDigit c = true := by
  unfold renderNat
  split_ifs with h
  · exact ⟨'0', [], rfl, rfl⟩
  · have hne : (Nat.digits 10 n).reverse ≠ [] := by
      simpa using (@Nat.digits_ne_nil_iff_ne_zero 10 n).mpr h
    obtain ⟨d, ds, hds⟩ := List.exists_cons_of_ne_nil hne
    refine ⟨digitChar d, ds.map digitChar, by rw [hds]; rfl, ?_⟩
    apply isDigit_digitChar
    have hmem : d ∈ (Nat.digits 10 n).reverse := by rw [hds]; exact List.mem_cons_self _ _
    exact Nat.digits_lt_base (by decide) (List.mem_reverse.mp hmem)

theorem isDigit_ne {c d : Char} (hc : isDigit c = true) (hd : isDigit d = false) : c ≠ d := by
  intro e
  rw [e, hd] at hc
  exact Bool.false_ne_true hc

theorem parseSign_renderInt (i : Int) (rest : List Char) :
    parseSign (renderInt i ++ rest) = (decide (i < 0), renderNat i.natAbs ++ rest) := by
  unfold renderInt
  split_ifs with h
  · simp [parseSign, h]
  · obtain ⟨c, t, hct, hc⟩ := renderNat_head i.natAbs
    have h1 : c ≠ '-' := isDigit_ne hc (by rfl)
    rw [hct]
    simp [parseSign, h, h1]

theorem parseExpSign_renderInt (i : Int) (rest : List Char) :
    parseExpSign (renderInt i ++ rest) = (decide (i < 0), renderNat i.natAbs ++ rest) := by
  unfold renderInt
  split_ifs with h
  · simp [parseExpSign, h]
  · obtain ⟨c, t, hct, hc⟩ := renderNat_head i.natAbs
    have h1 : c ≠ '-' := isDigit_ne hc (by rfl)
    have h2 : c ≠ '+' := isDigit_ne hc (by rfl)
    rw [hct]
    simp [parseExpSign, h, h1, h2]

theorem applySign_natAbs (i : Int) : applySign (decide (i < 0)) i.natAbs = i := by
  unfold applySign
  by_cases h : i < 0
  · simp only [h, decide_True, if_true]
    omega
  · simp only [h, decide_False]
    simp only [Bool.false_eq_true, if_false]
    omega

theorem parseNumber_render (m e : Int) (rest : List Char) (h : digitFree rest = true) :
    parseNumber (renderInt m ++ 'e' :: renderInt e ++ rest) = some (Value.number m e, rest) := by
  have hm := renderNat_length_pos m.natAbs
  have he := renderNat_length_pos e.natAbs
  have h1 : parseDigits 0 0 (renderNat m.natAbs ++ 'e' :: (renderInt e ++ rest))
      = (m.natAbs, (renderNat m.natAbs).length, 'e' :: (renderInt e ++ rest)) :=
    parseDigits_renderNat _ _ (by rfl)
  have h2 : parseExponent ('e' :: (renderInt e ++ rest)) = some (e, rest) := by
    simp only [parseExponent, true_or, if_true, List.append_eq]
    rw [parseExpSign_renderInt, parseDigits_renderNat _ _ h]
    simp [Nat.pos_iff_ne_zero.mp he, applySign_natAbs]
  have h3 : parseFraction m.natAbs ('e' :: (renderInt e ++ rest))
      = some (m.natAbs, 0, 'e' :: (renderInt e ++ rest)) := by
    simp [parseFraction]
  unfold parseNumber
  rw [List.append_assoc, parseSign_renderInt]
  simp only [List.cons_append, h1]
  simp [Nat.pos_iff_ne_zero.mp hm, h2, h3, applySign_natAbs]


mutual
theorem Value.induct {P : Value → Prop} (hnull : P .null) (hbool : ∀ b, P (.bool b))
    (hnum : ∀ m e, P (.number m e)) (hstr : ∀ s, P (.string s))
    (harr : ∀ xs, (∀ x ∈ xs, P x) → P (.array xs))
    (hobj : ∀ kvs, (∀ kv ∈ kvs, P kv.2) → P (.object kvs))
    (huns : P .unsupported) : ∀ v, P v
  | .null => hnull
  | .bool b => hbool b
  | .number m e => hnum m e
  | .string s => hstr s
  | .array xs => harr xs (Value.inductList hnull hbool hnum hstr harr hobj huns xs)
  | .object kvs => hobj kvs (Value.inductMembers hnull hbool hnum hstr harr hobj huns kvs)
  | .unsupported => huns
theorem Value.inductList {P : Value → Prop} (hnull : P .null) (hbool : ∀ b, P (.bool b))
    (hnum : ∀ m e, P (.number m e)) (hstr : ∀ s, P (.string s))
    (harr : ∀ xs, (∀ x ∈ xs, P x) → P (.array xs))
    (hobj : ∀ kvs, (∀ kv ∈ kvs, P kv.2) → P (.object kvs))
    (huns : P .unsupported) : ∀ xs : List Value, ∀ x ∈ xs, P x
  | [], _, h => absurd h (List.not_mem_nil _)
  | y :: ys, x, h => by
    rcases List.mem_cons.mp h with h1 | h1
    · exact h1 ▸ Value.induct hnull hbool hnum hstr harr hobj huns y
    · exact Value.inductList hnull hbool hnum hstr harr hobj huns ys x h1
theorem Value.inductMembers {P : Value → Prop} (hnull : P .null) (hbool : ∀ b, P (.bool b))
    (hnum : ∀ m e, P (.number m e)) (hstr : ∀ s, P (.string s))
    (harr : ∀ xs, (∀ x ∈ xs, P x) → P (.array xs))
    (hobj : ∀ kvs, (∀ kv ∈ kvs, P kv.2) → P (.object kvs))
    (huns : P .unsupported) : ∀ kvs : List (String × Value), ∀ kv ∈ kvs, P kv.2
  | [], _, h => absurd h (List.not_mem_nil _)
  | (k, y) :: ys, x, h => by
    rcases List.mem_cons.mp h with h1 | h1
    · exact h1 ▸ Value.induct hnull hbool hnum hstr harr hobj huns y
    · exact Value.inductMembers hnull hbool hnum hstr harr hobj huns ys x h1
end

theorem encodableList_iff (xs : List Value) :
    Value.encodableList xs = true ↔ ∀ x ∈ xs, x.encodable = true := by
  induction xs with
  | nil => simp [Value.encodableList]
  | cons x xs ih => simp [Value.encodableList, ih]

theorem encodableMembers_iff (kvs : List (String × Value)) :
    Value.encodableMembers kvs = true ↔ ∀ kv ∈ kvs, kv.2.encodable = true := by
  induction kvs with
  | nil => simp [Value.encodableMembers]
  | cons kv kvs ih =>
    obtain ⟨k, v⟩ := kv
    simp [Value.encodableMembers, ih]


theorem skipWs_cons (c : Char) (cs : List Char) (h : isSpace c = false) :
    skipWs (c :: cs) = c :: cs := by
  simp [skipWs, h]

theorem renderInt_head (i : Int) :
    ∃ c t, renderInt i = c :: t ∧ (c = '-' ∨ isDigit c = true) := by
  unfold renderInt
  split_ifs with h
  · exact ⟨'-', _, rfl, Or.inl rfl⟩
  · obtain ⟨c, t, hct, hc⟩ := renderNat_head i.natAbs
    exact ⟨c, t, hct, Or.inr hc⟩

theorem startsValue_facts (c : Char) (h : startsValue c = true) :
    isSpace c = false ∧ c ≠ ']' ∧ c ≠ '}' := by
  simp only [startsValue, Bool.or_eq_true, decide_eq_true_eq] at h
  rcases h with ((((((h | h) | h) | h) | h) | h) | h) | h
  any_goals (subst h; exact ⟨by rfl, by decide, by decide⟩)
  refine ⟨?_, isDigit_ne h (by rfl), isDigit_ne h (by rfl)⟩
  have h1 := isDigit_ne h (show isDigit ' ' = false by rfl)
  have h2 := isDigit_ne h (show isDigit '\t' = false by rfl)
  have h3 := isDigit_ne h (show isDigit '\n' = false by rfl)
  have h4 := isDigit_ne h (show isDigit '\r' = false by rfl)
  simp [isSpace, h1, h2, h3, h4]

theorem render_head (v : Value) (h : v.encodable = true) :
    ∃ c t, render v = c :: t ∧ startsValue c = true := by
  cases v with
  | null => exact ⟨_, _, rfl, by rfl⟩
  | bool b => cases b <;> exact ⟨_, _, rfl, by rfl⟩
  | number m e =>
    obtain ⟨c, t, hct, hc⟩ := renderInt_head m
    refine ⟨c, t ++ 'e' :: renderInt e, by simp [render, hct], ?_⟩
    rcases hc with hc | hc
    · subst hc; rfl
    · simp [startsValue, hc]
  | string s => exact ⟨_, _, rfl, by rfl⟩
  | array xs => cases xs <;> exact ⟨_, _, rfl, by rfl⟩
  | object kvs =>
    cases kvs with
    | nil => exact ⟨_, _, rfl, by rfl⟩
    | cons kv kvs => exact ⟨_, _, rfl, by rfl⟩
  | unsupported => simp [Value.encodable] at h


theorem digitFree_renderRest (ys : List Value) (c : Char) (hc : isDigit c = false)
    (rest : List Char) : digitFree (renderRest ys ++ c :: rest) = true := by
  cases ys with
  | nil => simp [renderRest, digitFree, hc]
  | cons y ys => rfl

theorem digitFree_renderMembers (ys : List (String × Value)) (c : Char) (hc : isDigit c = false)
    (rest : List Char) : digitFree (renderMembers ys ++ c :: rest) = true := by
  cases ys with
  | nil => simp [renderMembers, digitFree, hc]
  | cons y ys => rfl

theorem parseElems_render (pv : List Char → Option (Value × List Char)) (rest : List Char) :
    ∀ (ys : List Value) (x : Value) (n : Nat),
      (∀ y ∈ x :: ys, ∀ r, digitFree r = true → pv (render y ++ r) = some (y, r)) →
      ys.length < n →
      parseElems pv n (render x ++ renderRest ys ++ ']' :: rest) = some (x :: ys, rest) := by
  intro ys
  induction ys with
  | nil =>
    intro x n hpv hn
    cases n with
    | zero => omega
    | succ n =>
      have hx := hpv x (List.mem_cons_self _ _) (']' :: rest) (by rfl)
      simp only [renderRest, List.append_nil, parseElems, hx]
      rfl
  | cons y ys ih =>
    intro x n hpv hn
    cases n with
    | zero => omega
    | succ n =>
      have hx := hpv x (List.mem_cons_self _ _)
        (',' :: (render y ++ renderRest ys ++ ']' :: rest)) (by rfl)
      have hrec := ih y n (fun z hz => hpv z (List.mem_cons_of_mem _ hz))
        (by simp only [List.length_cons] at hn; omega)
      simp only [renderRest, List.append_assoc, List.cons_append] at hx hrec ⊢
      simp only [parseElems, hx]
      rw [skipWs_cons _ _ (by rfl)]
      simp only [if_true, hrec]
      rfl

theorem parseMember_render (pv : List Char → Option (Value × List Char)) (k : String)
    (x : Value) (r : List Char) (hpv : pv (render x ++ r) = some (x, r)) :
    parseMember pv (renderString k ++ ':' :: (render x ++ r)) = some ((k, x), r) := by
  simp only [renderString, List.cons_append, List.append_assoc, List.nil_append, parseMember]
  rw [skipWs_cons _ _ (by rfl)]
  simp only [if_true, parseChars_escape]
  rw [skipWs_cons _ _ (by rfl)]
  simp only [if_true, hpv]

theorem parseMembers_render (pv : List Char → Option (Value × List Char)) (rest : List Char) :
    ∀ (ys : List (String × Value)) (k : String) (x : Value) (n : Nat),
      (∀ y ∈ (k, x) :: ys, ∀ r, digitFree r = true → pv (render y.2 ++ r) = some (y.2, r)) →
      ys.length < n →
      parseMembers pv n (renderString k ++ ':' :: render x ++ renderMembers ys ++ '}' :: rest)
        = some ((k, x) :: ys, rest) := by
  intro ys
  induction ys with
  | nil =>
    intro k x n hpv hn
    cases n with
    | zero => omega
    | succ n =>
      have hx := hpv (k, x) (List.mem_cons_self _ _) ('}' :: rest) (by rfl)
      have hm := parseMember_render pv k x _ hx
      simp only [renderMembers, List.append_nil, List.append_assoc, List.cons_append,
        parseMembers] at hm ⊢
      rw [hm]
      rfl
  | cons y ys ih =>
    intro k x n hpv hn
    obtain ⟨k1, y1⟩ := y
    cases n with
    | zero => omega
    | succ n =>
      have hx := hpv (k, x) (List.mem_cons_self _ _)
        (',' :: (renderString k1 ++ ':' :: render y1 ++ renderMembers ys ++ '}' :: rest)) (by rfl)
      have hm := parseMember_render pv k x _ hx
      have hrec := ih k1 y1 n (fun z hz => hpv z (List.mem_cons_of_mem _ hz))
        (by simp only [List.length_cons] at hn; omega)
      simp only [renderMembers, List.append_assoc, List.cons_append] at hm hrec ⊢
      simp only [parseMembers, hm]
      rw [skipWs_cons _ _ (by rfl)]
      simp only [if_true, hrec]
      rfl

theorem length_renderRest (xs : List Value) :
    xs.length ≤ (renderRest xs).length ∧ ∀ y ∈ xs, (render y).length < (renderRest xs).length := by
  induction xs with
  | nil => simp [renderRest]
  | cons x xs ih =>
    refine ⟨by simp only [renderRest, List.length_cons, List.length_append]; omega, ?_⟩
    intro y hy
    simp only [renderRest, List.length_cons, List.length_append]
    rcases List.mem_cons.mp hy with h | h
    · subst h; omega
    · have := ih.2 y h
      omega

theorem length_renderMembers (xs : List (String × Value)) :
    xs.length ≤ (renderMembers xs).length ∧
      ∀ y ∈ xs, (render y.2).length < (renderMembers xs).length := by
  induction xs with
  | nil => simp [renderMembers]
  | cons x xs ih =>
    obtain ⟨k, x⟩ := x
    refine ⟨by simp only [renderMembers, List.length_cons, List.length_append]; omega, ?_⟩
    intro y hy
    simp only [renderMembers, List.length_cons, List.length_append]
    rcases List.mem_cons.mp hy with h | h
    · subst h; simp only; omega
    · have := ih.2 y h
      omega


theorem parseValue_number (fuel : Nat) (c : Char) (t : List Char)
    (hc : c = '-' ∨ isDigit c = true) :
    parseValue (fuel + 1) (c :: t) = parseNumber (c :: t) := by
  have hs : startsValue c = true := by
    rcases hc with hc | hc
    · subst hc; rfl
    · simp [startsValue, hc]
  have hsp := (startsValue_facts c hs).1
  have hne : c ≠ 'n' ∧ c ≠ 't' ∧ c ≠ 'f' ∧ c ≠ '"' ∧ c ≠ '[' ∧ c ≠ '{' := by
    rcases hc with hc | hc
    · subst hc; decide
    · exact ⟨isDigit_ne hc (by rfl), isDigit_ne hc (by rfl), isDigit_ne hc (by rfl),
        isDigit_ne hc (by rfl), isDigit_ne hc (by rfl), isDigit_ne hc (by rfl)⟩
  obtain ⟨h1, h2, h3, h4, h5, h6⟩ := hne
  have hc2 : c = '-' ∨ isDigit c = true := hc
  simp only [parseValue, skipWs_cons c t hsp, h1, h2, h3, h4, h5, h6, if_false, hc2, if_true]

/-- Decoding inverts encoding: the decoder, given more fuel than the encoding is long, reads an
encodable value back from the front of its encoding and leaves the text behind it. -/
theorem parseValue_render (v : Value) :
    v.encodable = true → ∀ fuel, (render v).length < fuel → ∀ rest, digitFree rest = true →
      parseValue fuel (render v ++ rest) = some (v, rest) := by
  induction v using Value.induct with
  | hnull =>
    intro _ fuel hf rest _
    cases fuel with
    | zero => omega
    | succ f => rfl
  | hbool b =>
    intro _ fuel hf rest _
    cases fuel with
    | zero => omega
    | succ f => cases b <;> rfl
  | hnum m e =>
    intro _ fuel hf rest hrest
    cases fuel with
    | zero => omega
    | succ f =>
      obtain ⟨c, t, hct, hc⟩ := renderInt_head m
      have hp := parseNumber_render m e rest hrest
      simp only [render, hct, List.cons_append, List.append_assoc] at hp ⊢
      rw [parseValue_number f c _ hc, hp]
  | hstr s =>
    intro _ fuel hf rest _
    cases fuel with
    | zero => omega
    | succ f =>
      simp only [render, renderString, List.cons_append, List.append_assoc, List.nil_append,
        parseValue]
      rw [skipWs_cons _ _ (by rfl)]
      simp [parseChars_escape]
  | harr xs ih =>
    intro henc fuel hf rest _
    cases fuel with
    | zero => omega
    | succ f =>
      cases xs with
      | nil => rfl
      | cons x xs =>
        have hall := (encodableList_iff (x :: xs)).mp (by simpa [Value.encodable] using henc)
        obtain ⟨c, t, hct, hc⟩ := render_head x (hall x (List.mem_cons_self _ _))
        obtain ⟨hsp, hb, _⟩ := startsValue_facts c hc
        have hlen := length_renderRest xs
        simp only [render, List.length_cons, List.length_append] at hf
        have hpv : ∀ y ∈ x :: xs, ∀ r, digitFree r = true →
            parseValue f (render y ++ r) = some (y, r) := by
          intro y hy r hr
          refine ih y hy (hall y hy) f ?_ r hr
          rcases List.mem_cons.mp hy with h | h
          · subst h; omega
          · have := hlen.2 y h
            omega
        have hp := parseElems_render (parseValue f) rest xs x f hpv (by omega)
        simp only [render, hct, List.cons_append, List.append_assoc, List.nil_append] at hp ⊢
        simp only [parseValue]
        rw [skipWs_cons _ _ (by rfl)]
        simp only [show ('[' : Char) ≠ 'n' by decide, show ('[' : Char) ≠ 't' by decide,
          show ('[' : Char) ≠ 'f' by decide, show ('[' : Char) ≠ '"' by decide, if_false, if_true]
        rw [skipWs_cons _ _ hsp]
        simp only [hb, if_false, hp, Option.map_some']
  | hobj kvs ih =>
    intro henc fuel hf rest _
    cases fuel with
    | zero => omega
    | succ f =>
      cases kvs with
      | nil => rfl
      | cons kv kvs =>
        obtain ⟨k, x⟩ := kv
        have hall := (encodableMembers_iff ((k, x) :: kvs)).mp
          (by simpa [Value.encodable] using henc)
        have hlen := length_renderMembers kvs
        simp only [render, List.length_cons, List.length_append] at hf
        have hpv : ∀ y ∈ (k, x) :: kvs, ∀ r, digitFree r = true →
            parseValue f (render y.2 ++ r) = some (y.2, r) := by
          intro y hy r hr
          refine ih y hy (hall y hy) f ?_ r hr
          rcases List.mem_cons.mp hy with h | h
          · subst h; simp only; omega
          · have := hlen.2 y h
            omega
        have hp := parseMembers_render (parseValue f) rest kvs k x f hpv (by omega)
        simp only [render, renderString, List.cons_append, List.append_assoc,
          List.nil_append] at hp ⊢
        simp only [parseValue]
        rw [skipWs_cons _ _ (by rfl)]
        simp only [show ('{' : Char) ≠ 'n' by decide, show ('{' : Char) ≠ 't' by decide,
          show ('{' : Char) ≠ 'f' by decide, show ('{' : Char) ≠ '"' by decide,
          show ('{' : Char) ≠ '[' by decide, if_false, if_true]
        rw [skipWs_cons _ _ (by rfl)]
        simp only [show ('"' : Char) ≠ '}' by decide, if_false, hp, Option.map_some']
  | huns =>
    intro henc
    simp [Value.encodable] at henc

/-- Library contract of encoding/json used throughout: what json.Marshal writes for a value
json.Unmarshal reads back as that value. -/
theorem Unmarshal_Marshal (v : Value) (h : v.encodable = true) :
    ∃ b, Marshal v = .ok b ∧ Unmarshal b = .ok v := by
  refine ⟨String.mk (render v), by simp [Marshal, h], ?_⟩
  have hp := parseValue_render v h ((render v).length + 1) (by omega) [] (by rfl)
  simp only [List.append_nil] at hp
  simp [Unmarshal, String.length, hp, skipWs]

theorem Marshal_unsupported (v : Value) (h : v.encodable = false) :
    Marshal v = .error .unsupportedValue := by
  simp [Marshal, h]


end json

/-! ## What `Authorization` and `Argument` compute -/

namespace handle

open runtime

/-- The bytes `json.Marshal` hands back for an encodable event decode into the map of its
top-level entries: after the first three statements of `Authorization` and `Argument`,
`req[k]` is the entry of the event under `k`, nil when there is none. -/
theorem index_decoded (event : json.Value) (henc : event.encodable = true) (k : String) :
    json.index
        (json.UnmarshalMap
          (match json.Marshal event with
            | .ok b => b
            | .error _ => "") []).1 k
      = (event.entry k).getD .null := by
  obtain ⟨b, hm, hu⟩ := json.Unmarshal_Marshal event henc
  rw [hm]
  simp only [json.UnmarshalMap, hu]
  cases event <;> simp [json.Value.entry, json.index, json.lookup]

/-- On an encodable event `Authorization` is the two assertions applied to the entry under
`request`. -/
theorem Authorization_eq (event : json.Value) (henc : event.encodable = true) :
    Authorization event =
      match assertMap ((event.entry "request").getD .null) with
      | .error p => .error p
      | .ok headers =>
        match json.index headers "authorization" with
        | .null => .ok ""
        | v => assertString v := by
  unfold Authorization
  simp only [index_decoded event henc]
  cases assertMap ((event.entry "request").getD .null) with
  | error p => rfl
  | ok headers =>
    simp only
    cases json.index headers "authorization" <;> rfl

/-- On an encodable event `Argument` is the two assertions applied to the entry under
`arguments`. -/
theorem Argument_eq (event : json.Value) (henc : event.encodable = true) (key : String) :
    Argument event key =
      match assertMap ((event.entry "arguments").getD .null) with
      | .error p => .error p
      | .ok args =>
        match json.index args key with
        | .null => .ok ""
        | v => assertString v := by
  unfold Argument
  simp only [index_decoded event henc]
  cases assertMap ((event.entry "arguments").getD .null) with
  | error p => rfl
  | ok args =>
    simp only
    cases json.index args key <;> rfl

end handle

/-! ## Claims -/

open runtime

/-- C1, as stated, fails on Scenario B: the envelope has no `request` entry, and `Authorization`
does not return the empty string on it; the type assertion on the nil entry panics. -/
theorem C1_missing_request_panics :
    scenario.envelopeB.entry "request" = none ∧
      handle.Authorization scenario.envelopeB = .error (.typeAssertion .nil .map) ∧
      handle.Authorization scenario.envelopeB ≠ .ok "" := by
  have h : handle.Authorization scenario.envelopeB = .error (.typeAssertion .nil .map) := by
    rw [handle.Authorization_eq _ (by rfl)]
    rfl
  refine ⟨by rfl, h, ?_⟩
  rw [h]
  exact fun e => by cases e

/-- C1, amended: for every envelope whose top-level `request` entry is a mapping that has no
`authorization` entry, `Authorization` returns the empty string, and returns normally. -/
theorem C1_authorization_empty_without_token (event : json.Value)
    (hs : List (String × json.Value)) (henc : event.encodable = true)
    (hreq : event.entry "request" = some (.object hs))
    (hno : json.lookup hs "authorization" = none) :
    handle.Authorization event = .ok "" := by
  rw [handle.Authorization_eq event henc, hreq]
  simp [assertMap, json.index, hno]

/-- C1, amended, at an envelope whose `request` holds only a `headers` mapping. -/
theorem C1_authorization_empty_without_token_witness :
    handle.Authorization scenario.envelopeNoToken = .ok "" :=
  C1_authorization_empty_without_token scenario.envelopeNoToken
    [("headers", .object [])] (by rfl) (by rfl) (by rfl)

/-- C2, as stated, fails: on an envelope with no `arguments` entry `Argument` does not return the
empty string; the type assertion on the nil entry panics. -/
theorem C2_missing_arguments_panics :
    scenario.envelopeNoArguments.entry "arguments" = none ∧
      handle.Argument scenario.envelopeNoArguments "name" = .error (.typeAssertion .nil .map) ∧
      handle.Argument scenario.envelopeNoArguments "name" ≠ .ok "" := by
  have h : handle.Argument scenario.envelopeNoArguments "name"
      = .error (.typeAssertion .nil .map) := by
    rw [handle.Argument_eq _ (by rfl)]
    rfl
  refine ⟨by rfl, h, ?_⟩
  rw [h]
  exact fun e => by cases e

/-- C2, amended: for every envelope in which the top-level `arguments` entry is absent or is not
a mapping, and for every key, `Argument` returns no string: the unchecked type assertion on the
entry panics, naming the dynamic type it found (nil for an absent or null entry). -/
theorem C2_argument_panics_without_mapping (event : json.Value) (key : String)
    (henc : event.encodable = true)
    (hnot : ∀ args, event.entry "arguments" ≠ some (.object args)) :
    handle.Argument event key
      = .error (.typeAssertion (kindOf ((event.entry "arguments").getD .null)) .map) := by
  rw [handle.Argument_eq event henc]
  cases h : event.entry "arguments" with
  | none => rfl
  | some v =>
    cases v with
    | object args => exact absurd h (hnot args)
    | _ => rfl

/-- C2, amended, at an envelope with no `arguments` entry. -/
theorem C2_argument_panics_without_mapping_witness :
    handle.Argument scenario.envelopeNoArguments "url" = .error (.typeAssertion .nil .map) :=
  C2_argument_panics_without_mapping scenario.envelopeNoArguments "url" (by rfl)
    (fun args h => by cases h)

/-- C3, as stated, fails: with a number under `request.authorization`, and with a number under
`arguments.name`, neither function returns the empty string; the assertion to `string` panics. -/
theorem C3_mistyped_leaf_not_empty :
    handle.Authorization scenario.envelopeMistyped = .error (.typeAssertion .float64 .string) ∧
      handle.Argument scenario.envelopeMistyped "name"
        = .error (.typeAssertion .float64 .string) ∧
      handle.Authorization scenario.envelopeMistyped ≠ .ok "" ∧
      handle.Argument scenario.envelopeMistyped "name" ≠ .ok "" := by
  have h1 : handle.Authorization scenario.envelopeMistyped
      = .error (.typeAssertion .float64 .string) := by
    rw [handle.Authorization_eq _ (by rfl)]
    rfl
  have h2 : handle.Argument scenario.envelopeMistyped "name"
      = .error (.typeAssertion .float64 .string) := by
    rw [handle.Argument_eq _ (by rfl)]
    rfl
  refine ⟨h1, h2, ?_, ?_⟩
  · rw [h1]
    exact fun e => by cases e
  · rw [h2]
    exact fun e => by cases e

/-- C3, amended: a value that is present, not null and not a string is not folded into the empty
string.  For every envelope, when `request` is a mapping whose `authorization` value is a number,
boolean, array or mapping, `Authorization` panics on the assertion to `string`, naming the type
it found; when `arguments` is a mapping whose value for the key is such a value, `Argument`
panics in the same way. -/
theorem C3_mistyped_leaf_panics (event : json.Value) (henc : event.encodable = true)
    (m : List (String × json.Value)) (v : json.Value)
    (hnull : v ≠ .null) (hstr : ∀ s, v ≠ .string s) :
    (event.entry "request" = some (.object m) → json.lookup m "authorization" = some v →
        handle.Authorization event = .error (.typeAssertion (kindOf v) .string)) ∧
      (∀ key, event.entry "arguments" = some (.object m) → json.lookup m key = some v →
        handle.Argument event key = .error (.typeAssertion (kindOf v) .string)) := by
  constructor
  · intro hreq hv
    rw [handle.Authorization_eq event henc, hreq]
    simp only [Option.getD_some, assertMap, json.index, hv]
    cases v with
    | null => exact absurd rfl hnull
    | string s => exact absurd rfl (hstr s)
    | _ => rfl
  · intro key harg hv
    rw [handle.Argument_eq event henc, harg]
    simp only [Option.getD_some, assertMap, json.index, hv]
    cases v with
    | null => exact absurd rfl hnull
    | string s => exact absurd rfl (hstr s)
    | _ => rfl

/-- C3, amended, at the envelope whose `request` holds a number under `authorization`. -/
theorem C3_mistyped_leaf_panics_witness :
    handle.Authorization scenario.envelopeMistyped
      = .error (.typeAssertion .float64 .string) :=
  (C3_mistyped_leaf_panics scenario.envelopeMistyped (by rfl)
    [("authorization", .number 5 0)] (.number 5 0)
    (fun h => by cases h) (fun s h => by cases h)).1 (by rfl) (by rfl)

/-- C4: for every envelope whose top-level `request` entry is a mapping that holds a string `t`
under `authorization`, `Authorization` returns exactly `t`, whatever else the envelope holds. -/
theorem C4_authorization_returns_token (event : json.Value) (hs : List (String × json.Value))
    (t : String) (henc : event.encodable = true)
    (hreq : event.entry "request" = some (.object hs))
    (hauth : json.lookup hs "authorization" = some (.string t)) :
    handle.Authorization event = .ok t := by
  rw [handle.Authorization_eq event henc, hreq]
  simp [assertMap, json.index, hauth, assertString]

/-- C4 at Scenario A: the token `tok1` is returned. -/
theorem C4_authorization_returns_token_witness :
    handle.Authorization scenario.envelopeA = .ok "tok1" :=
  C4_authorization_returns_token scenario.envelopeA [("authorization", .string "tok1")] "tok1"
    (by rfl) (by rfl) (by rfl)

/-- C5: for every envelope whose top-level `arguments` entry is a mapping, `Argument` returns
exactly the string the mapping holds under the key; and when the mapping holds strings under
`name`, `mailAddress` and `url`, `toInput` is the input made of the three. -/
theorem C5_argument_returns_value (event : json.Value) (args : List (String × json.Value))
    (henc : event.encodable = true)
    (harg : event.entry "arguments" = some (.object args)) :
    (∀ k v, json.lookup args k = some (.string v) → handle.Argument event k = .ok v) ∧
      (∀ n m u, json.lookup args "name" = some (.string n) →
        json.lookup args "mailAddress" = some (.string m) →
        json.lookup args "url" = some (.string u) →
        cmd.mediaaccount.toInput event = .ok { Name := n, MailAddress := m, URL := u }) := by
  have key : ∀ k v, json.lookup args k = some (.string v) → handle.Argument event k = .ok v := by
    intro k v hv
    rw [handle.Argument_eq event henc, harg]
    simp [assertMap, json.index, hv, assertString]
  refine ⟨key, ?_⟩
  intro n m u hn hm hu
  simp only [cmd.mediaaccount.toInput, key _ _ hn, key _ _ hm, key _ _ hu]

/-- C5 at Scenario A: the input is Acme, a@b.com, http://x. -/
theorem C5_argument_returns_value_witness :
    handle.Argument scenario.envelopeA "mailAddress" = .ok "a@b.com" ∧
      cmd.mediaaccount.toInput scenario.envelopeA
        = .ok { Name := "Acme", MailAddress := "a@b.com", URL := "http://x" } :=
  have h := C5_argument_returns_value scenario.envelopeA
    [("name", .string "Acme"), ("mailAddress", .string "a@b.com"), ("url", .string "http://x")]
    (by rfl) (by rfl)
  ⟨h.1 "mailAddress" "a@b.com" (by rfl), h.2 "Acme" "a@b.com" "http://x" (by rfl) (by rfl) (by rfl)⟩

/-- C6, as stated, fails: for a payload that holds a NaN `json.Marshal` returns an error, which
`NormalResponse` discards; the body is the empty string, which is not JSON and does not decode
back to the payload. -/
theorem C6_unencodable_payload_empty_body :
    json.Marshal scenario.payloadNaN = .error .unsupportedValue ∧
      (handle.NormalResponse json.Marshal scenario.emptyRequest scenario.payloadNaN).Body = "" ∧
      json.Unmarshal
          (handle.NormalResponse json.Marshal scenario.emptyRequest scenario.payloadNaN).Body
        = .error .syntaxError ∧
      json.Unmarshal
          (handle.NormalResponse json.Marshal scenario.emptyRequest scenario.payloadNaN).Body
        ≠ .ok scenario.payloadNaN := by
  have h : json.Unmarshal
      (handle.NormalResponse json.Marshal scenario.emptyRequest scenario.payloadNaN).Body
      = .error .syntaxError := by rfl
  refine ⟨by rfl, by rfl, h, ?_⟩
  rw [h]
  exact fun e => by cases e

/-- C6, amended: for every request and every payload, of whatever Go type, `NormalResponse` has
status code 200.  When `json.Marshal` returns text for the payload the body is exactly that text,
so the body decodes back to a value equal to the payload exactly when that text does.  When
`json.Marshal` returns an error the body is the empty string, which no JSON decoder accepts: the
body does not decode back to the payload. -/
theorem C6_normal_response_body {α ε : Type} (marshal : α → Except ε String)
    (unmarshal : String → Except ε α) (hempty : ∀ v, unmarshal "" ≠ .ok v)
    (request : events.APIGatewayProxyRequest) (res : α) :
    (handle.NormalResponse marshal request res).StatusCode = 200 ∧
      (∀ b, marshal res = .ok b →
        (handle.NormalResponse marshal request res).Body = b ∧
          (unmarshal (handle.NormalResponse marshal request res).Body = .ok res ↔
            unmarshal b = .ok res)) ∧
      (∀ e, marshal res = .error e →
        (handle.NormalResponse marshal request res).Body = "" ∧
          unmarshal (handle.NormalResponse marshal request res).Body ≠ .ok res) := by
  refine ⟨rfl, ?_, ?_⟩
  · intro b hb
    have hbody : (handle.NormalResponse marshal request res).Body = b := by
      simp only [handle.NormalResponse, hb]
    exact ⟨hbody, by rw [hbody]⟩
  · intro e he
    have hbody : (handle.NormalResponse marshal request res).Body = "" := by
      simp only [handle.NormalResponse, he]
    exact ⟨hbody, by rw [hbody]; exact hempty res⟩

/-- C6, amended, with the encoder and decoder of this file: a payload that is a JSON document
gives a body that decodes back to it, and the payload that holds a NaN gives the empty body. -/
theorem C6_normal_response_body_witness :
    json.Unmarshal
          (handle.NormalResponse json.Marshal scenario.otherRequest scenario.payload).Body
        = .ok scenario.payload ∧
      (handle.NormalResponse json.Marshal scenario.otherRequest scenario.payloadNaN).Body = "" :=
  have hempty : ∀ v, json.Unmarshal "" ≠ .ok v := fun _ h => by cases h
  ⟨((C6_normal_response_body json.Marshal json.Unmarshal hempty scenario.otherRequest
      scenario.payload).2.1 (String.mk (json.render scenario.payload)) (by rfl)).2.mpr (by rfl),
   ((C6_normal_response_body json.Marshal json.Unmarshal hempty scenario.otherRequest
      scenario.payloadNaN).2.2 .unsupportedValue (by rfl)).1⟩

/-- C7: for every request and every error, `UnauthorizedResponse`, `ClientErrorResponse` and
`NotFoundErrorResponse` return a response with status code 401, 400 and 404 respectively, each
with a body that is exactly the error's text. -/
theorem C7_error_responses (request : events.APIGatewayProxyRequest) (e : GoError) :
    (∃ r, handle.UnauthorizedResponse request (some e) = .ok r ∧
        r.StatusCode = 401 ∧ r.Body = e.Error) ∧
      (∃ r, handle.ClientErrorResponse request (some e) = .ok r ∧
        r.StatusCode = 400 ∧ r.Body = e.Error) ∧
      (∃ r, handle.NotFoundErrorResponse request (some e) = .ok r ∧
        r.StatusCode = 404 ∧ r.Body = e.Error) :=
  ⟨⟨_, rfl, rfl, rfl⟩, ⟨_, rfl, rfl, rfl⟩, ⟨_, rfl, rfl, rfl⟩⟩

/-- C8, as stated, fails: the response built for an unexpected error does not carry the error's
text; `UnexpectedErrorResponse` takes no error and its body is always `unknown error`. -/
theorem C8_unexpected_body_not_error_text :
    (handle.UnexpectedErrorResponse scenario.emptyRequest).Body = "unknown error" ∧
      (handle.UnexpectedErrorResponse scenario.emptyRequest).Body
        ≠ scenario.upstreamFailure.Error := by
  refine ⟨rfl, ?_⟩
  decide

/-- C8, amended: for every request, `UnexpectedErrorResponse` has status code 500, the fixed
headers and the fixed body `unknown error`; the body is the text of an error only for an error
whose text is `unknown error`. -/
theorem C8_unexpected_response_fixed (request : events.APIGatewayProxyRequest) :
    (handle.UnexpectedErrorResponse request).StatusCode = 500 ∧
      (handle.UnexpectedErrorResponse request).Headers = handle.Headers request ∧
      (handle.UnexpectedErrorResponse request).Body = "unknown error" ∧
      ∀ err : GoError,
        (handle.UnexpectedErrorResponse request).Body = err.Error ↔ err.Error = "unknown error" :=
  ⟨rfl, rfl, rfl, fun _ => ⟨fun h => h.symm, fun h => h.symm⟩⟩

/-- C9, as stated, fails: `ErrorResponse` is exported and returns the code it is given, so its
status code need not be one of the five: code 418 gives a response with status 418. -/
theorem C9_error_response_other_code :
    (∃ r, handle.ErrorResponse scenario.emptyRequest 418 (some scenario.accountNotFound) = .ok r ∧
        r.StatusCode = 418) ∧
      (418 : Int) ∉ statusCodes :=
  ⟨⟨_, rfl, rfl⟩, by decide⟩

/-- C9, amended: every response returned by `NormalResponse`, `UnauthorizedResponse`,
`ClientErrorResponse`, `NotFoundErrorResponse` and `UnexpectedErrorResponse` has a status code
among 200, 400, 401, 404, 500; a response returned by `ErrorResponse` has the status code it was
given, so one of the five exactly when the given code is. -/
theorem C9_status_codes {α ε : Type} (marshal : α → Except ε String)
    (request : events.APIGatewayProxyRequest) (res : α)
    (err : Option GoError) (code : Int) (r : events.APIGatewayProxyResponse) :
    (handle.NormalResponse marshal request res).StatusCode ∈ statusCodes ∧
      (handle.UnexpectedErrorResponse request).StatusCode ∈ statusCodes ∧
      (handle.UnauthorizedResponse request err = .ok r → r.StatusCode ∈ statusCodes) ∧
      (handle.ClientErrorResponse request err = .ok r → r.StatusCode ∈ statusCodes) ∧
      (handle.NotFoundErrorResponse request err = .ok r → r.StatusCode ∈ statusCodes) ∧
      (handle.ErrorResponse request code err = .ok r →
        r.StatusCode = code ∧ (r.StatusCode ∈ statusCodes ↔ code ∈ statusCodes)) := by
  have key : ∀ c : Int, handle.ErrorResponse request c err = .ok r → r.StatusCode = c := by
    intro c h
    cases err with
    | none => cases h
    | some e =>
      simp only [handle.ErrorResponse, Except.ok.injEq] at h
      rw [← h]
  refine ⟨?_, ?_, ?_, ?_, ?_, ?_⟩
  · show (200 : Int) ∈ statusCodes
    decide
  · show (500 : Int) ∈ statusCodes
    decide
  · intro h
    rw [key 401 h]
    decide
  · intro h
    rw [key 400 h]
    decide
  · intro h
    rw [key 404 h]
    decide
  · intro h
    rw [key code h]
    exact ⟨rfl, Iff.rfl⟩

/-- C9, amended, at Scenario C: the not-found response is returned and its status code, 404, is
one of the five. -/
theorem C9_status_codes_witness :
    handle.NotFoundErrorResponse scenario.emptyRequest (some scenario.accountNotFound)
        = .ok { StatusCode := 404, Headers := handle.Headers scenario.emptyRequest,
                MultiValueHeaders := [], Body := "account not found",
                IsBase64Encoded := false } ∧
      (404 : Int) ∈ statusCodes :=
  ⟨rfl,
   (C9_status_codes json.Marshal scenario.emptyRequest scenario.payload
    (some scenario.accountNotFound) 404
    { StatusCode := 404, Headers := handle.Headers scenario.emptyRequest,
      MultiValueHeaders := [], Body := "account not found", IsBase64Encoded := false }).2.2.2.2.1
    rfl⟩

/-- C10: `Headers` is the same mapping for every request; it allows any origin, allows
credentials and allows exactly the methods GET,POST,PUT,DELETE; and the headers of every response
a response builder returns are this mapping. -/
theorem C10_cors_headers {α ε : Type} (marshal : α → Except ε String)
    (request other : events.APIGatewayProxyRequest) (res : α)
    (err : Option GoError) (code : Int) (r : events.APIGatewayProxyResponse) :
    handle.Headers request = handle.Headers other ∧
      List.lookup "Access-Control-Allow-Origin" (handle.Headers request) = some "*" ∧
      List.lookup "Access-Control-Allow-Credentials" (handle.Headers request) = some "true" ∧
      List.lookup "Access-Control-Allow-Methods" (handle.Headers request)
        = some "GET,POST,PUT,DELETE" ∧
      (handle.NormalResponse marshal request res).Headers = handle.Headers request ∧
      (handle.UnexpectedErrorResponse request).Headers = handle.Headers request ∧
      (handle.ErrorResponse request code err = .ok r → r.Headers = handle.Headers request) ∧
      (handle.UnauthorizedResponse request err = .ok r → r.Headers = handle.Headers request) ∧
      (handle.ClientErrorResponse request err = .ok r → r.Headers = handle.Headers request) ∧
      (handle.NotFoundErrorResponse request err = .ok r → r.Headers = handle.Headers request) := by
  have key : ∀ c : Int, handle.ErrorResponse request c err = .ok r →
      r.Headers = handle.Headers request := by
    intro c h
    cases err with
    | none => cases h
    | some e =>
      simp only [handle.ErrorResponse, Except.ok.injEq] at h
      rw [← h]
  exact ⟨rfl, rfl, rfl, rfl, rfl, rfl, key code, key 401, key 400, key 404⟩

/-- C10 at two different requests and the not-found response of Scenario C. -/
theorem C10_cors_headers_witness :
    handle.Headers scenario.emptyRequest = handle.Headers scenario.otherRequest ∧
      handle.NotFoundErrorResponse scenario.otherRequest (some scenario.accountNotFound)
        = .ok { StatusCode := 404, Headers := handle.Headers scenario.emptyRequest,
                MultiValueHeaders := [], Body := "account not found",
                IsBase64Encoded := false } ∧
      handle.Headers scenario.emptyRequest = handle.Headers scenario.otherRequest :=
  have h := C10_cors_headers json.Marshal scenario.otherRequest scenario.emptyRequest
    scenario.payload
    (some scenario.accountNotFound) 404
    { StatusCode := 404, Headers := handle.Headers scenario.emptyRequest,
      MultiValueHeaders := [], Body := "account not found", IsBase64Encoded := false }
  ⟨h.1.symm, rfl, h.2.2.2.2.2.2.2.2.2 rfl⟩

/-! ### The handlers: helper facts -/

namespace handle

open runtime effects

/-- The calls of `EOA` and its result, by the outcome of the construction of the handle. -/
theorem EOA_cases (w : Collaborators) (ctx : Context) (jwt : String) :
    (∃ v e, w.newVerifier ctx w.ssmNew = (v, some e) ∧
        EOA w ctx jwt = ([.ssmNew, .authNewVerifier], (common.Address.zero, some e))) ∨
      (∃ v, w.newVerifier ctx w.ssmNew = (v, none) ∧
        EOA w ctx jwt
          = ([.ssmNew, .authNewVerifier, .newVerifyService, .verify jwt], w.verify v ctx jwt)) := by
  unfold EOA
  rcases h : w.newVerifier ctx w.ssmNew with ⟨v, _ | e⟩
  · exact Or.inr ⟨v, rfl, rfl⟩
  · exact Or.inl ⟨v, e, rfl, rfl⟩

/-- No call of `EOA` is a call of the business service. -/
theorem EOA_no_newApplication (w : Collaborators) (ctx : Context) (jwt : String) :
    (EOA w ctx jwt).1.filter Call.isNewApplication = [] := by
  rcases EOA_cases w ctx jwt with ⟨v, e, _, h⟩ | ⟨v, _, h⟩ <;> rw [h] <;> rfl

end handle

namespace cmd.mediaaccount

open runtime effects

/-- A run in which `Authorization` panics makes no call. -/
theorem handler_of_panic {Output : Type} (w : Collaborators Output) (ctx : Context)
    (event : json.Value) (p : Panic) (hauth : handle.Authorization event = .error p) :
    handler w ctx event = ([], .error p) := by
  simp only [handler, hauth]

/-- A run in which verification fails: the calls of `EOA`, a nil pointer and the error. -/
theorem handler_of_rejected {Output : Type} (w : Collaborators Output) (ctx : Context)
    (event : json.Value) (auth : String) (ad : common.Address) (e : GoError)
    (hauth : handle.Authorization event = .ok auth)
    (herr : (handle.EOA w.auth ctx auth).2 = (ad, some e)) :
    handler w ctx event = ((handle.EOA w.auth ctx auth).1, .ok (none, some e)) := by
  rcases hE : handle.EOA w.auth ctx auth with ⟨calls, ad1, err1⟩
  rw [hE] at herr
  simp only [Prod.mk.injEq] at herr
  obtain ⟨_, rfl⟩ := herr
  simp only [handler, hauth, hE]

/-- A run in which verification succeeds and `toInput` panics: the service is built and not
called. -/
theorem handler_of_bad_input {Output : Type} (w : Collaborators Output) (ctx : Context)
    (event : json.Value) (auth : String) (a : common.Address) (p : Panic)
    (hauth : handle.Authorization event = .ok auth)
    (hver : (handle.EOA w.auth ctx auth).2 = (a, none))
    (hin : toInput event = .error p) :
    handler w ctx event
      = ((handle.EOA w.auth ctx auth).1
          ++ [.ssmNew, .slackNew, .ddbNew, .mediarepNew, .newService], .error p) := by
  rcases hE : handle.EOA w.auth ctx auth with ⟨calls, ad1, err1⟩
  rw [hE] at hver
  simp only [Prod.mk.injEq] at hver
  obtain ⟨rfl, rfl⟩ := hver
  simp only [handler, hauth, hE, hin]

/-- A run in which verification succeeds and `toInput` returns: one call of the service, whose
pair decides the result. -/
theorem handler_of_verified {Output : Type} (w : Collaborators Output) (ctx : Context)
    (event : json.Value) (auth : String) (a : common.Address)
    (input : mediaaccount.ApplyForMediaInput)
    (hauth : handle.Authorization event = .ok auth)
    (hver : (handle.EOA w.auth ctx auth).2 = (a, none))
    (hin : toInput event = .ok input) :
    handler w ctx event
      = ((handle.EOA w.auth ctx auth).1
          ++ [.ssmNew, .slackNew, .ddbNew, .mediarepNew, .newService, .newApplication a input],
        .ok (outcome (w.newApplication (w.mediarepNew w.ddbNew)
          (w.slackNew ctx w.auth.ssmNew).1 ctx a input))) := by
  rcases hE : handle.EOA w.auth ctx auth with ⟨calls, ad1, err1⟩
  rw [hE] at hver
  simp only [Prod.mk.injEq] at hver
  obtain ⟨rfl, rfl⟩ := hver
  simp only [handler, hauth, hE, hin]
  rcases w.newApplication (w.mediarepNew w.ddbNew) (w.slackNew ctx w.auth.ssmNew).1 ctx ad1 input
    with ⟨res, _ | e⟩ <;> simp [outcome]

end cmd.mediaaccount

/-! ## Claims on verification and the handlers -/

open effects

/-- C11, as stated, fails: `EOA` has no check of the token, so with a verifier that accepts every
token the empty token is verified and `EOA` returns an identity and no error. -/
theorem C11_empty_token_accepted :
    handle.EOA scenario.verifierAny scenario.ctx ""
        = ([.ssmNew, .authNewVerifier, .newVerifyService, .verify ""],
            (scenario.addressABC, none)) ∧
      (handle.EOA scenario.verifierAny scenario.ctx "").2.2 = none :=
  ⟨rfl, rfl⟩

/-- C11, amended: for every context and every verifier, `EOA(ctx, "")` returns the zero address
and the construction error when construction of the verifier handle fails, and otherwise returns
exactly the pair the verifier's `Verify` returns for the empty string; it fails when the handle
cannot be built or the verifier rejects the empty token, and has no check of its own. -/
theorem C11_eoa_delegates_to_verifier (w : handle.Collaborators) (ctx : Context) :
    (∀ v e, w.newVerifier ctx w.ssmNew = (v, some e) →
        (handle.EOA w ctx "").2 = (common.Address.zero, some e)) ∧
      (∀ v, w.newVerifier ctx w.ssmNew = (v, none) →
        (handle.EOA w ctx "").2 = w.verify v ctx "") := by
  constructor
  · intro v e h
    simp only [handle.EOA, h]
  · intro v h
    simp only [handle.EOA, h]

/-- C11, amended, at a verifier that rejects the empty token: no identity and its error. -/
theorem C11_eoa_delegates_to_verifier_witness :
    (handle.EOA scenario.verifierA scenario.ctx "").2
      = (common.Address.zero, some scenario.unauthenticated) :=
  (C11_eoa_delegates_to_verifier scenario.verifierA scenario.ctx).2 { id := 2 } rfl

/-- C12: in the media-account handler, for every event for which `EOA` returns an error, the
business service is never invoked (the calls made are those of `EOA`), and the handler returns a
nil output together with that same error. -/
theorem C12_verification_error_short_circuits {Output : Type}
    (w : cmd.mediaaccount.Collaborators Output) (ctx : Context) (event : json.Value)
    (auth : String) (ad : common.Address) (e : GoError)
    (hauth : handle.Authorization event = .ok auth)
    (herr : (handle.EOA w.auth ctx auth).2 = (ad, some e)) :
    (cmd.mediaaccount.handler w ctx event).2 = .ok (none, some e) ∧
      (cmd.mediaaccount.handler w ctx event).1 = (handle.EOA w.auth ctx auth).1 ∧
      (cmd.mediaaccount.handler w ctx event).1.filter Call.isNewApplication = [] := by
  rw [cmd.mediaaccount.handler_of_rejected w ctx event auth ad e hauth herr]
  exact ⟨rfl, rfl, handle.EOA_no_newApplication w.auth ctx auth⟩

/-- C12 at an envelope whose token is missing, with the verifier of Scenario A: the empty token
is rejected, the result is the verifier's error and the service is not called. -/
theorem C12_verification_error_short_circuits_witness :
    (cmd.mediaaccount.handler scenario.servicesA scenario.ctx scenario.envelopeNoToken).2
        = .ok (none, some scenario.unauthenticated) ∧
      (cmd.mediaaccount.handler scenario.servicesA scenario.ctx
          scenario.envelopeNoToken).1.filter Call.isNewApplication = [] :=
  have h := C12_verification_error_short_circuits scenario.servicesA scenario.ctx
    scenario.envelopeNoToken "" common.Address.zero scenario.unauthenticated (by rfl) (by rfl)
  ⟨h.1, h.2.2⟩

/-- C13, as stated, fails: on an envelope with the token of Scenario A and no `arguments` the
token is verified, yet the business service is not invoked; `toInput` panics first. -/
theorem C13_verified_service_not_invoked :
    handle.Authorization scenario.envelopeNoArguments = .ok "tok1" ∧
      (handle.EOA scenario.servicesA.auth scenario.ctx "tok1").2 = (scenario.addressABC, none) ∧
      (cmd.mediaaccount.handler scenario.servicesA scenario.ctx
          scenario.envelopeNoArguments).1.filter Call.isNewApplication = [] ∧
      (cmd.mediaaccount.handler scenario.servicesA scenario.ctx scenario.envelopeNoArguments).2
        = .error (.typeAssertion .nil .map) :=
  ⟨by rfl, by rfl, by rfl, by rfl⟩

/-- C13, amended: in the media-account handler, for every event for which verification of
`Authorization(event)` succeeds with identity `a` and for which `toInput(event)` returns, the
business service is invoked exactly once, with identity `a` and input `toInput(event)`, and the
handler returns the service's output on success or the service's error unchanged. -/
theorem C13_verified_service_invoked_once {Output : Type}
    (w : cmd.mediaaccount.Collaborators Output) (ctx : Context) (event : json.Value)
    (auth : String) (a : common.Address) (input : mediaaccount.ApplyForMediaInput)
    (hauth : handle.Authorization event = .ok auth)
    (hver : (handle.EOA w.auth ctx auth).2 = (a, none))
    (hin : cmd.mediaaccount.toInput event = .ok input) :
    (cmd.mediaaccount.handler w ctx event).1.filter Call.isNewApplication
        = [.newApplication a input] ∧
      (∀ res, w.newApplication (w.mediarepNew w.ddbNew) (w.slackNew ctx w.auth.ssmNew).1 ctx a
            input = (res, none) →
        (cmd.mediaaccount.handler w ctx event).2 = .ok (some res, none)) ∧
      (∀ res e, w.newApplication (w.mediarepNew w.ddbNew) (w.slackNew ctx w.auth.ssmNew).1 ctx a
            input = (res, some e) →
        (cmd.mediaaccount.handler w ctx event).2 = .ok (none, some e)) := by
  rw [cmd.mediaaccount.handler_of_verified w ctx event auth a input hauth hver hin]
  refine ⟨?_, ?_, ?_⟩
  · simp only [List.filter_append, handle.EOA_no_newApplication]
    rfl
  · intro res h
    simp only [h, cmd.mediaaccount.outcome]
  · intro res e h
    simp only [h, cmd.mediaaccount.outcome]

/-- C13, amended, at Scenario A: one call of the service, with address 0xABC and the input
Acme, a@b.com, http://x, and the service's output returned. -/
theorem C13_verified_service_invoked_once_witness :
    (cmd.mediaaccount.handler scenario.servicesA scenario.ctx
          scenario.envelopeA).1.filter Call.isNewApplication
        = [.newApplication scenario.addressABC
            { Name := "Acme", MailAddress := "a@b.com", URL := "http://x" }] ∧
      (cmd.mediaaccount.handler scenario.servicesA scenario.ctx scenario.envelopeA).2
        = .ok (some "Acme", none) :=
  have h := C13_verified_service_invoked_once scenario.servicesA scenario.ctx scenario.envelopeA
    "tok1" scenario.addressABC { Name := "Acme", MailAddress := "a@b.com", URL := "http://x" }
    (by rfl) (by rfl) (by rfl)
  ⟨h.1, h.2.1 "Acme" rfl⟩

/-- C14, as stated, fails: when construction of the verifier handle fails `EOA` returns before
`Verify`, so the call of `EOA` performs no `Verify` call, not one. -/
theorem C14_no_verify_when_construction_fails :
    (handle.EOA scenario.verifierDown scenario.ctx "tok1").1.filter Call.isVerify = [] ∧
      ((handle.EOA scenario.verifierDown scenario.ctx "tok1").1.filter Call.isVerify).length
        ≠ 1 ∧
      (handle.EOA scenario.verifierDown scenario.ctx "tok1").2
        = (common.Address.zero, some scenario.upstreamFailure) :=
  ⟨by rfl, by decide, by rfl⟩

/-- C14, amended: for every context and token, one call of `EOA` performs exactly one `Verify`
call, on that token, when construction of the verifier handle succeeds, and none when it fails;
a run of the media-account handler in which `Authorization` returns performs the `Verify` calls
of its one call of `EOA` and no other, and a run in which `Authorization` panics makes no call. -/
theorem C14_verify_calls {Output : Type} (w : cmd.mediaaccount.Collaborators Output)
    (ctx : Context) (jwt : String) (event : json.Value) :
    (∀ v, w.auth.newVerifier ctx w.auth.ssmNew = (v, none) →
        (handle.EOA w.auth ctx jwt).1.filter Call.isVerify = [.verify jwt]) ∧
      (∀ v e, w.auth.newVerifier ctx w.auth.ssmNew = (v, some e) →
        (handle.EOA w.auth ctx jwt).1.filter Call.isVerify = []) ∧
      (∀ auth, handle.Authorization event = .ok auth →
        (cmd.mediaaccount.handler w ctx event).1.filter Call.isVerify
          = (handle.EOA w.auth ctx auth).1.filter Call.isVerify) ∧
      (∀ p, handle.Authorization event = .error p →
        (cmd.mediaaccount.handler w ctx event).1 = []) := by
  refine ⟨?_, ?_, ?_, ?_⟩
  · intro v h
    simp only [handle.EOA, h]
    rfl
  · intro v e h
    simp only [handle.EOA, h]
    rfl
  · intro auth hauth
    rcases hE : (handle.EOA w.auth ctx auth).2 with ⟨a, _ | e⟩
    · cases hin : cmd.mediaaccount.toInput event with
      | error p =>
        rw [cmd.mediaaccount.handler_of_bad_input w ctx event auth a p hauth hE hin]
        simp only [List.filter_append]
        exact List.append_nil _
      | ok input =>
        rw [cmd.mediaaccount.handler_of_verified w ctx event auth a input hauth hE hin]
        simp only [List.filter_append]
        exact List.append_nil _
    · rw [cmd.mediaaccount.handler_of_rejected w ctx event auth a e hauth hE]
  · intro p hauth
    rw [cmd.mediaaccount.handler_of_panic w ctx event p hauth]

/-- C14, amended, at Scenario A: the run of the handler performs the one call `Verify(tok1)`. -/
theorem C14_verify_calls_witness :
    (cmd.mediaaccount.handler scenario.servicesA scenario.ctx
        scenario.envelopeA).1.filter Call.isVerify = [.verify "tok1"] :=
  have h := C14_verify_calls scenario.servicesA scenario.ctx "tok1" scenario.envelopeA
  (h.2.2.1 "tok1" (by rfl)).trans (h.1 { id := 2 } rfl)

/-- C15: absence of the leaf is folded into the empty string when the container is present.  For
every envelope whose `arguments` is a mapping and every key that is missing from it or mapped to
null, `Argument` returns the empty string; for every envelope whose `request` is a mapping in
which `authorization` is missing or null, `Authorization` returns the empty string. -/
theorem C15_absent_leaf_is_empty (event : json.Value) (m : List (String × json.Value))
    (henc : event.encodable = true) :
    (∀ k, event.entry "arguments" = some (.object m) →
        json.lookup m k = none ∨ json.lookup m k = some .null →
        handle.Argument event k = .ok "") ∧
      (event.entry "request" = some (.object m) →
        json.lookup m "authorization" = none ∨ json.lookup m "authorization" = some .null →
        handle.Authorization event = .ok "") := by
  constructor
  · intro k harg hk
    rw [handle.Argument_eq event henc, harg]
    rcases hk with hk | hk <;> simp [runtime.assertMap, json.index, hk]
  · intro hreq hk
    rw [handle.Authorization_eq event henc, hreq]
    rcases hk with hk | hk <;> simp [runtime.assertMap, json.index, hk]

/-- C15 at an envelope whose `authorization` and `url` are null and which has no
`mailAddress`. -/
theorem C15_absent_leaf_is_empty_witness :
    handle.Argument scenario.envelopeNullLeaves "url" = .ok "" ∧
      handle.Argument scenario.envelopeNullLeaves "mailAddress" = .ok "" ∧
      handle.Authorization scenario.envelopeNullLeaves = .ok "" :=
  ⟨(C15_absent_leaf_is_empty scenario.envelopeNullLeaves
      [("name", .string "Acme"), ("url", .null)] (by rfl)).1 "url" (by rfl) (Or.inr (by rfl)),
   (C15_absent_leaf_is_empty scenario.envelopeNullLeaves
      [("name", .string "Acme"), ("url", .null)] (by rfl)).1 "mailAddress" (by rfl)
      (Or.inl (by rfl)),
   (C15_absent_leaf_is_empty scenario.envelopeNullLeaves
      [("authorization", .null)] (by rfl)).2 (by rfl) (Or.inr (by rfl))⟩

/-- C16: the ingestion handler does not depend on its event.  For every two SNS events the run is
the same; when the data-warehouse client is constructed the handler uploads the fixed record with
ID 1 and name hoge exactly once, and returns what the upload returns: nil when it succeeds, its
error unchanged when it fails. -/
theorem C16_putbq_ignores_event (w : cmd.putbq.Collaborators) (ctx : Context)
    (request other : events.SNSEvent) :
    cmd.putbq.handler w ctx request = cmd.putbq.handler w ctx other ∧
      ∀ client, w.bigqueryNew ctx = (client, none) →
        (cmd.putbq.handler w ctx request).1.filter Call.isUpload
            = [.upload { ID := "1", Name := "hoge" }] ∧
          (cmd.putbq.handler w ctx request).2
            = .returned (w.upload ctx client { ID := "1", Name := "hoge" }) := by
  refine ⟨rfl, ?_⟩
  intro client h
  simp only [cmd.putbq.handler, h]
  cases w.upload ctx client { ID := "1", Name := "hoge" } <;> exact ⟨rfl, rfl⟩

/-- C16 at a warehouse whose upload fails: one upload of the fixed record, the error returned,
for an event with a record as for an event without. -/
theorem C16_putbq_ignores_event_witness :
    cmd.putbq.handler scenario.warehouseFull scenario.ctx scenario.snsOne
        = cmd.putbq.handler scenario.warehouseFull scenario.ctx scenario.snsEmpty ∧
      (cmd.putbq.handler scenario.warehouseFull scenario.ctx scenario.snsOne).1.filter
          Call.isUpload = [.upload { ID := "1", Name := "hoge" }] ∧
      (cmd.putbq.handler scenario.warehouseFull scenario.ctx scenario.snsOne).2
        = .returned (some scenario.upstreamFailure) :=
  have h := C16_putbq_ignores_event scenario.warehouseFull scenario.ctx scenario.snsOne
    scenario.snsEmpty
  ⟨h.1, (h.2 { id := 6 } rfl).1, (h.2 { id := 6 } rfl).2⟩

/-- C17, as stated, fails: with the sender's construction failed and the token verified, the
handler does not invoke the business service on an envelope whose `name` argument is a boolean;
`toInput` panics first, as it does when the construction succeeds. -/
theorem C17_sender_failed_service_not_invoked :
    handle.Authorization scenario.envelopeBadName = .ok "tok1" ∧
      (handle.EOA scenario.servicesA.auth scenario.ctx "tok1").2 = (scenario.addressABC, none) ∧
      (cmd.mediaaccount.handler
          (cmd.mediaaccount.withSlackError scenario.servicesA (some scenario.upstreamFailure))
          scenario.ctx scenario.envelopeBadName).1.filter Call.isNewApplication = [] ∧
      (cmd.mediaaccount.handler
          (cmd.mediaaccount.withSlackError scenario.servicesA (some scenario.upstreamFailure))
          scenario.ctx scenario.envelopeBadName).2
        = .error (.typeAssertion .bool .string) :=
  ⟨by rfl, by rfl, by rfl, by rfl⟩

/-- C17, amended: the error returned by `slack.New` never affects the run: for every event the
calls and the result of the handler are the same whatever that error is; and for every event
whose token verifies and for which `toInput(event)` returns, the handler invokes the business
service, built with the sender `slack.New` returned, and returns exactly the service's outcome,
whether or not the sender's construction failed. -/
theorem C17_sender_error_ignored {Output : Type} (w : cmd.mediaaccount.Collaborators Output)
    (ctx : Context) (event : json.Value) (e : Option GoError) :
    cmd.mediaaccount.handler (cmd.mediaaccount.withSlackError w e) ctx event
        = cmd.mediaaccount.handler w ctx event ∧
      ∀ auth a input, handle.Authorization event = .ok auth →
        (handle.EOA w.auth ctx auth).2 = (a, none) →
        cmd.mediaaccount.toInput event = .ok input →
        Call.newApplication a input
            ∈ (cmd.mediaaccount.handler (cmd.mediaaccount.withSlackError w e) ctx event).1 ∧
          (cmd.mediaaccount.handler (cmd.mediaaccount.withSlackError w e) ctx event).2
            = .ok (cmd.mediaaccount.outcome
                (w.newApplication (w.mediarepNew w.ddbNew) (w.slackNew ctx w.auth.ssmNew).1 ctx a
                  input)) := by
  have hsame : cmd.mediaaccount.handler (cmd.mediaaccount.withSlackError w e) ctx event
      = cmd.mediaaccount.handler w ctx event := rfl
  refine ⟨hsame, ?_⟩
  intro auth a input hauth hver hin
  rw [hsame, cmd.mediaaccount.handler_of_verified w ctx event auth a input hauth hver hin]
  exact ⟨by simp, rfl⟩

/-- C17, amended, at Scenario A with the sender's construction failed: the service is invoked
with address 0xABC and the input of the envelope, and its output is returned. -/
theorem C17_sender_error_ignored_witness :
    Call.newApplication scenario.addressABC
          { Name := "Acme", MailAddress := "a@b.com", URL := "http://x" }
        ∈ (cmd.mediaaccount.handler
            (cmd.mediaaccount.withSlackError scenario.servicesA (some scenario.upstreamFailure))
            scenario.ctx scenario.envelopeA).1 ∧
      (cmd.mediaaccount.handler
          (cmd.mediaaccount.withSlackError scenario.servicesA (some scenario.upstreamFailure))
          scenario.ctx scenario.envelopeA).2 = .ok (some "Acme", none) :=
  (C17_sender_error_ignored scenario.servicesA scenario.ctx scenario.envelopeA
    (some scenario.upstreamFailure)).2 "tok1" scenario.addressABC
    { Name := "Acme", MailAddress := "a@b.com", URL := "http://x" } (by rfl) (by rfl) (by rfl)

/-! ## `withoutProtocol` -/

namespace strings

/-- A text that begins with a pattern holds each character of the pattern. -/
theorem mem_of_HasPrefix (c : Char) :
    ∀ (s old : List Char), HasPrefix s old = true → c ∈ old → c ∈ s
  | _, [], _, hc => absurd hc (List.not_mem_nil _)
  | [], _ :: _, h, _ => by simp [HasPrefix] at h
  | a :: s, p :: ps, h, hc => by
    simp only [HasPrefix, Bool.and_eq_true, decide_eq_true_eq] at h
    rcases List.mem_cons.mp hc with h1 | h1
    · rw [h1, ← h.1]
      exact List.mem_cons_self _ _
    · exact List.mem_cons_of_mem _ (mem_of_HasPrefix c s ps h.2 h1)

/-- The scan leaves a text unchanged that lacks a character of the pattern. -/
theorem replaceAux_of_not_mem (old new : List Char) (c : Char) (hc : c ∈ old) :
    ∀ (fuel : Nat) (s : List Char), c ∉ s → replaceAux old new fuel s = s
  | 0, _, _ => rfl
  | fuel + 1, s, hs => by
    have hp : HasPrefix s old = false := by
      cases h : HasPrefix s old with
      | false => rfl
      | true => exact absurd (mem_of_HasPrefix c s old h hc) hs
    cases s with
    | nil => simp [replaceAux, hp]
    | cons a s =>
      simp only [replaceAux, hp, Bool.false_eq_true, if_false, List.cons.injEq, true_and]
      exact replaceAux_of_not_mem old new c hc fuel s (fun h => hs (List.mem_cons_of_mem _ h))

/-- The scan for `https://` removes the protocol in front of a text without a colon. -/
theorem replaceAux_https (s : List Char) (hs : ':' ∉ s) (fuel : Nat) :
    replaceAux "https://".data [] (fuel + 1) ("https://".data ++ s) = s := by
  have h := replaceAux_of_not_mem "https://".data [] ':' (by decide) fuel s hs
  simpa [replaceAux, HasPrefix] using h

/-- The scan for `https://` leaves `http://` in front of a text without a colon. -/
theorem replaceAux_https_http (s : List Char) (hs : ':' ∉ s) (fuel : Nat) :
    replaceAux "https://".data [] (fuel + 7) ("http://".data ++ s) = "http://".data ++ s := by
  have h := replaceAux_of_not_mem "https://".data [] ':' (by decide) fuel s hs
  simpa [replaceAux, HasPrefix] using h

/-- The scan for `http://` removes the protocol in front of a text without a colon. -/
theorem replaceAux_http (s : List Char) (hs : ':' ∉ s) (fuel : Nat) :
    replaceAux "http://".data [] (fuel + 1) ("http://".data ++ s) = s := by
  have h := replaceAux_of_not_mem "http://".data [] ':' (by decide) fuel s hs
  simpa [replaceAux, HasPrefix] using h

end strings

namespace strings

/-- `ReplaceAll` with the pattern `https://` and the empty replacement is the scan. -/
theorem ReplaceAll_https (s : String) :
    ReplaceAll s "https://" "" = String.mk (replaceAux "https://".data [] s.data.length s.data) := by
  unfold ReplaceAll
  rw [if_neg (by decide)]

/-- `ReplaceAll` with the pattern `http://` and the empty replacement is the scan. -/
theorem ReplaceAll_http (s : String) :
    ReplaceAll s "http://" "" = String.mk (replaceAux "http://".data [] s.data.length s.data) := by
  unfold ReplaceAll
  rw [if_neg (by decide)]

end strings

/-- C18: for every string that has no colon, `withoutProtocol` removes `https://` in front of
it, removes `http://` in front of it, and leaves the string itself as it is. -/
theorem C18_withoutProtocol_strips (h : String) (hc : ':' ∉ h.data) :
    handle.withoutProtocol ("https://" ++ h) = h ∧
      handle.withoutProtocol ("http://" ++ h) = h ∧
      handle.withoutProtocol h = h := by
  have hplain : ∀ n, strings.replaceAux "https://".data [] n h.data = h.data :=
    fun n => strings.replaceAux_of_not_mem _ _ ':' (by decide) n h.data hc
  have hplain2 : ∀ n, strings.replaceAux "http://".data [] n h.data = h.data :=
    fun n => strings.replaceAux_of_not_mem _ _ ':' (by decide) n h.data hc
  have l1 : ("https://".data ++ h.data).length = (h.data.length + 7) + 1 := by
    simp [List.length_append]
  have l2 : ("http://".data ++ h.data).length = h.data.length + 7 := by
    simp [List.length_append]
  have l3 : ("http://".data ++ h.data).length = (h.data.length + 6) + 1 := by
    simp [List.length_append]
  refine ⟨?_, ?_, ?_⟩
  · unfold handle.withoutProtocol
    rw [strings.ReplaceAll_https, String.data_append, l1, strings.replaceAux_https _ hc,
      strings.ReplaceAll_http, hplain2]
  · unfold handle.withoutProtocol
    rw [strings.ReplaceAll_https, String.data_append, l2, strings.replaceAux_https_http _ hc,
      strings.ReplaceAll_http]
    simp only []
    rw [l3, strings.replaceAux_http _ hc]
  · unfold handle.withoutProtocol
    rw [strings.ReplaceAll_https, hplain, strings.ReplaceAll_http, hplain2]

/-- C18 at the host `example.org`. -/
theorem C18_withoutProtocol_strips_witness :
    handle.withoutProtocol ("https://" ++ "example.org") = "example.org" ∧
      handle.withoutProtocol ("http://" ++ "example.org") = "example.org" ∧
      handle.withoutProtocol "example.org" = "example.org" :=
  C18_withoutProtocol_strips "example.org" (by decide)
